import Mathlib

/-!
Shallow embedding of the nufs single-block file system
(src/p2-nat-mat-main: storage.c, directory.c, inode.c, nufs.c).

The image is modelled as a record of total functions: the block bitmap,
the inode bitmap, the persisted root-inode slot, the inode table, the
directory-entry view of every block and the raw-byte view of every block.
In the C source the directory-entry view and the byte view alias the same
mapped memory; no claim verified here mixes the two views of one block,
so they are kept as separate fields.  Machine integers are modelled as
Int (C int) and Nat (sizes, modes); names and paths are byte lists
(C strings without their terminating NUL).  The wall clock (time(NULL))
is passed to every mutating operation as an explicit `now` argument.

helpers/blocks.c and helpers/bitmap.c are not part of src/; the
definitions in the "blocks layer" section are modelled from the spec
(sections 4.1-4.3 and 6 of spec.md) and carry doc comments saying so.
-/

/-- Linux errno value ENOENT (2). -/
def ENOENT : Int := 2
/-- Linux errno value ENOMEM (12). -/
def ENOMEM : Int := 12
/-- Linux errno value EEXIST (17). -/
def EEXIST : Int := 17
/-- Linux errno value ENOTDIR (20). -/
def ENOTDIR : Int := 20
/-- Linux errno value EISDIR (21). -/
def EISDIR : Int := 21
/-- Linux errno value EINVAL (22). -/
def EINVAL : Int := 22
/-- Linux errno value ENOSPC (28). -/
def ENOSPC : Int := 28

/-- BLOCK_SIZE from helpers/blocks.h: 4096 bytes per block. -/
def BLOCK_SIZE : Nat := 4096

/-- INODE_COUNT from inode.h: 256 inodes. -/
def INODE_COUNT : Nat := 256

/-- DIR_NAME_LENGTH from directory.h: 48-byte name field. -/
def DIR_NAME_LENGTH : Nat := 48

/-- sizeof(dir_entry_t): 48-byte name + 4-byte inum + 12 bytes padding = 64. -/
def DIRENT_SIZE : Nat := 64

/-- Entries per directory block: BLOCK_SIZE / sizeof(dir_entry_t) = 64. -/
def DIR_CAPACITY : Nat := 64

/-- S_ISDIR(m): (m & 0170000) == 0040000, i.e. the file-type nibble is 4. -/
def S_ISDIR (m : Nat) : Bool := (m / 4096) % 16 == 4

/-- S_ISREG(m): (m & 0170000) == 0100000, i.e. the file-type nibble is 8. -/
def S_ISREG (m : Nat) : Bool := (m / 4096) % 16 == 8

/-- S_IFDIR | 0755 = 0040755 = 16877, the mode storage_init gives the root. -/
def MODE_DIR_0755 : Nat := 16877

/-- S_IFREG | 0644 = 0100644 = 33188, the mode used by the spec scenarios. -/
def MODE_REG_0644 : Nat := 33188

/-- Pointwise update of a total function at one index (a store write). -/
def fupd {α : Type} (f : Nat → α) (i : Nat) (v : α) : Nat → α :=
  fun k => if k = i then v else f k

/-- Smallest index i < n with p i = true, scanning upward as the C loops do. -/
def scanFirst (p : Nat → Bool) : Nat → Option Nat
  | 0 => none
  | n + 1 =>
    match scanFirst p n with
    | some i => some i
    | none => if p n then some n else none

/-- Bytes of a C string stored in a fixed buffer: everything before the
first NUL byte.  strcmp equality of two stored names is equality of their
`cstr` projections. -/
def cstr (bs : List Nat) : List Nat := bs.takeWhile (fun b => b != 0)

/-- Result of `strncpy(dst, src, 47); dst[47] = 0;` on a 48-byte name field:
the first 47 bytes of src, zero-padded to 48 bytes.  (strncpy zero-fills the
remainder of its 47-byte window when src is shorter.) -/
def padName (src : List Nat) : List Nat :=
  src.take 47 ++ List.replicate (48 - min src.length 47) 0

/-- dir_entry_t from directory.h: 48-byte name, int inum, 12 bytes padding. -/
structure DirEnt where
  name : List Nat
  inum : Int
  reserved : List Nat
deriving DecidableEq

/-- An all-zero directory record (what memset leaves behind). -/
def zeroEnt : DirEnt := ⟨List.replicate 48 0, 0, List.replicate 12 0⟩

instance : Inhabited DirEnt := ⟨zeroEnt⟩

/-- First byte of an entry's stored name (entries[i].name[0] in the C). -/
def nb0 (e : DirEnt) : Nat := e.name.getD 0 0

/-- inode_t from inode.h. -/
structure Inode where
  inum : Int
  refs : Int
  mode : Nat
  size : Int
  block : Int
  atime : Int
  mtime : Int
  ctime : Int
deriving DecidableEq

/-- An all-zero inode record. -/
def zeroInode : Inode := ⟨0, 0, 0, 0, 0, 0, 0, 0⟩

instance : Inhabited Inode := ⟨zeroInode⟩

/-- The mapped image: block bitmap, inode bitmap, persisted root slot
(all inside block 0), the inode table, and the two views of every block. -/
structure FS where
  blockBitmap : Nat → Bool
  inodeBitmap : Nat → Bool
  rootSlot : Int
  inodes : Nat → Inode
  blocks : Nat → Nat → DirEnt
  data : Nat → Nat → Nat

/- ===================== blocks layer (modelled from the spec) ============= -/

/-- Modelled from the spec: helpers/blocks.c is not in src/.  Spec section 3:
total blocks T is image-file dependent; the model fixes T = 256. -/
def BLOCK_COUNT : Nat := 256

/-- Modelled from the spec: blocks occupied by the superblock/bitmaps block
(block 0) and the inode table are permanently reserved.  With 48-byte inode
records, 85 records fit per block, so 256 inodes need 4 table blocks;
blocks 0..4 are reserved and data blocks start at 5. -/
def RESERVED_BLOCKS : Nat := 5

/-- Modelled from the spec: blocks_init on a fresh image — all bytes zero
except the pre-set bitmap bits for block 0 and the inode-table blocks
(spec sections 4.1, 4.3, 6). -/
def freshImage : FS :=
  { blockBitmap := fun b => decide (b < RESERVED_BLOCKS)
    inodeBitmap := fun _ => false
    rootSlot := 0
    inodes := fun _ => zeroInode
    blocks := fun _ _ => zeroEnt
    data := fun _ _ => 0 }

/-- Modelled from the spec: alloc_block scans the block bitmap from index 0
and returns the first clear bit after setting it, or a negative "no space"
value if every bit is set (spec section 4.3). -/
def alloc_block (fs : FS) : Int × FS :=
  match scanFirst (fun b => !fs.blockBitmap b) BLOCK_COUNT with
  | some b => ((b : Int), { fs with blockBitmap := fupd fs.blockBitmap b true })
  | none => (-1, fs)

/-- Modelled from the spec: free_block(i) clears bit i of the block bitmap
(spec section 4.3).  The bitmap primitive has no bounds check and the spec
makes the caller responsible for the domain; an out-of-domain index is
modelled as leaving the image unchanged. -/
def free_block (fs : FS) (i : Int) : FS :=
  if 0 ≤ i ∧ i < (BLOCK_COUNT : Int) then
    { fs with blockBitmap := fupd fs.blockBitmap i.toNat false }
  else fs

/-- Modelled from the spec: the persisted root-inode-number slot in block 0
(spec section 3), read side. -/
def blocks_get_root_block (fs : FS) : Int := fs.rootSlot

/-- Modelled from the spec: the persisted root-inode-number slot in block 0,
write side. -/
def blocks_set_root_block (fs : FS) (n : Int) : FS := { fs with rootSlot := n }

/-- Modelled from the spec: blocks_flush synchronizes the mapping and has no
effect on the logical image contents. -/
def blocks_flush (fs : FS) : FS := fs

/- ============================ inode.c layer ============================== -/

/-- get_inode from inode.c: a view of inode record inum, or none when the
number is out of [0, INODE_COUNT). -/
def get_inode (fs : FS) (inum : Int) : Option Inode :=
  if 0 ≤ inum ∧ inum < (INODE_COUNT : Int) then some (fs.inodes inum.toNat)
  else none

/-- Write-back through an inode pointer obtained from get_inode: updates the
table record at a (in-range) index. -/
def setInode (fs : FS) (n : Nat) (v : Inode) : FS :=
  { fs with inodes := fupd fs.inodes n v }

/-- alloc_inode from inode.c: first-fit scan of the inode bitmap; on success
sets the bit, zeroes the record and writes inum, refs = 1 and the three
timestamps; returns -1 when no inode is free. -/
def alloc_inode (fs : FS) (now : Int) : Int × FS :=
  match scanFirst (fun n => !fs.inodeBitmap n) INODE_COUNT with
  | some n =>
    ((n : Int),
      { fs with
        inodeBitmap := fupd fs.inodeBitmap n true
        inodes := fupd fs.inodes n
          { inum := (n : Int), refs := 1, mode := 0, size := 0, block := 0
            atime := now, mtime := now, ctime := now } })
  | none => (-1, fs)

/-- free_inode from inode.c: clears the inode's bitmap bit, then frees the
inode's block when node->block != 0.  All call sites in the source pass an
in-range inode number. -/
def free_inode (fs : FS) (inum : Int) : FS :=
  let fs1 :=
    if 0 ≤ inum ∧ inum < (INODE_COUNT : Int) then
      { fs with inodeBitmap := fupd fs.inodeBitmap inum.toNat false }
    else fs
  let node := fs1.inodes inum.toNat
  if node.block ≠ 0 then free_block fs1 node.block else fs1

/- ========================== directory.c layer ============================ -/

/-- Number of live entries of a directory: inode.size / sizeof(dir_entry_t). -/
def dirCount (nd : Inode) : Nat := (nd.size / (DIRENT_SIZE : Int)).toNat

/-- directory_lookup from directory.c: linear strcmp scan over the live
prefix of the directory block; returns the inum of the first name match or
-ENOENT.  The dir argument is the record read through the caller's inode
pointer. -/
def directory_lookup (fs : FS) (dir : Inode) (name : List Nat) : Int :=
  let ents := fs.blocks dir.block.toNat
  match scanFirst (fun i => cstr (ents i).name == name) (dirCount dir) with
  | some i => (ents i).inum
  | none => -ENOENT

/-- directory_put from directory.c: reuse the first slot of the live prefix
whose name starts with NUL, writing the truncated name and the inum there
and returning 0 without touching size or mtime; otherwise append at index
count, increment size by 64 and set mtime, failing -ENOSPC when the live
prefix already fills the block.  dnum is the inode-table index behind the
caller's dir pointer; -ENOTDIR when the pointer is null or not a directory. -/
def directory_put (fs : FS) (dnum : Int) (name : List Nat) (inum : Int)
    (now : Int) : Int × FS :=
  match get_inode fs dnum with
  | none => (-ENOTDIR, fs)
  | some dir =>
    if ¬ S_ISDIR dir.mode then (-ENOTDIR, fs)
    else
      let b := dir.block.toNat
      let ents := fs.blocks b
      let count := dirCount dir
      match scanFirst (fun i => nb0 (ents i) == 0) count with
      | some i =>
        let ents' := fupd ents i { ents i with name := padName name, inum := inum }
        (0, { fs with blocks := fupd fs.blocks b ents' })
      | none =>
        if DIR_CAPACITY ≤ count then (-ENOSPC, fs)
        else
          let ents' := fupd ents count { ents count with name := padName name, inum := inum }
          let dir' := { dir with size := dir.size + (DIRENT_SIZE : Int), mtime := now }
          (0, { fs with
                blocks := fupd fs.blocks b ents'
                inodes := fupd fs.inodes dnum.toNat dir' })

/-- The entry array left by directory_delete's memset-then-memmove-then-memset
sequence when the match was at index i of a live prefix of length count:
slots before i keep their entries, slots i..count-2 take the following
entry, slot count-1 is zeroed, and slots at or beyond count are untouched. -/
def deleteShift (ents : Nat → DirEnt) (i count : Nat) : Nat → DirEnt :=
  fun j =>
    if j = count - 1 then zeroEnt
    else if i ≤ j ∧ j < count - 1 then ents (j + 1)
    else ents j

/-- directory_delete from directory.c: find the first live entry (name first
byte not NUL) matching the name; zero its name, shift the following live
entries left, zero the final slot, decrement size by 64 and set mtime;
-ENOENT when no live entry matches. -/
def directory_delete (fs : FS) (dnum : Int) (name : List Nat)
    (now : Int) : Int × FS :=
  match get_inode fs dnum with
  | none => (-EINVAL, fs)
  | some dir =>
    if ¬ S_ISDIR dir.mode then (-ENOTDIR, fs)
    else
      let b := dir.block.toNat
      let ents := fs.blocks b
      let count := dirCount dir
      match scanFirst
          (fun i => nb0 (ents i) != 0 && cstr (ents i).name == name)
          count with
      | none => (-ENOENT, fs)
      | some i =>
        let dir' := { dir with size := dir.size - (DIRENT_SIZE : Int), mtime := now }
        (0, { fs with
              blocks := fupd fs.blocks b (deleteShift ents i count)
              inodes := fupd fs.inodes dnum.toNat dir' })

/- =========================== storage.c layer ============================= -/

/-- Index of the last occurrence of x in the list (strrchr), or none. -/
def lastIdxOf (x : Nat) : List Nat → Option Nat
  | [] => none
  | c :: rest =>
    match lastIdxOf x rest with
    | some i => some (i + 1)
    | none => if c = x then some 0 else none

/-- strtok_r tokenizer, accumulator form: maximal nonempty runs of bytes
other than the delimiter. -/
def tokAux (delim : Nat) : List Nat → List Nat → List (List Nat)
  | [], acc => if acc = [] then [] else [acc.reverse]
  | c :: rest, acc =>
    if c = delim then
      if acc = [] then tokAux delim rest []
      else acc.reverse :: tokAux delim rest []
    else tokAux delim rest (c :: acc)

/-- Path components as strtok_r(path, "/") produces them. -/
def tokenize (p : List Nat) : List (List Nat) := tokAux 47 p []

/-- Component-walking loop of storage_lookup_path. -/
def lookupWalk (fs : FS) : List (List Nat) → Int → Int
  | [], cur => cur
  | comp :: rest, cur =>
    match get_inode fs cur with
    | none => -ENOTDIR
    | some node =>
      if ¬ S_ISDIR node.mode then -ENOTDIR
      else
        let nxt := directory_lookup fs node comp
        if nxt < 0 then -ENOENT else lookupWalk fs rest nxt

/-- storage_lookup_path from storage.c: "/" is inode 0; otherwise walk the
"/"-separated components from the root, failing -ENOTDIR when the current
inode is not a directory and -ENOENT when a component is missing. -/
def storage_lookup_path (fs : FS) (path : List Nat) : Int :=
  if path = [47] then 0 else lookupWalk fs (tokenize path) 0

/-- The parent path passed to storage_lookup_path after splitting at the
last slash: the bytes before it, or "/" when that is empty. -/
def parentPathOf (path : List Nat) (li : Nat) : List Nat :=
  if path.take li = [] then [47] else path.take li

/-- storage_init from storage.c: when the persisted root inode number is
invalid (≤ 0, out of range, or not a directory inode) it allocates a fresh
inode with mode S_IFDIR | 0755, allocates a block, zeroes it, writes "."
and ".." entries both pointing at the new inode, sets size to
5 * sizeof(dir_entry_t) — the literal written at storage.c line 44 — and
persists the new root inode number. -/
def storage_init (fs : FS) (now : Int) : FS :=
  let root_inum := blocks_get_root_block fs
  let rootOk :=
    match get_inode fs root_inum with
    | none => false
    | some root => decide (0 < root_inum) && S_ISDIR root.mode
  if rootOk then fs
  else
    let (ri, fs1) := alloc_inode fs now
    if ri < 0 then fs1
    else
      let fs2 := setInode fs1 ri.toNat { fs1.inodes ri.toNat with mode := MODE_DIR_0755 }
      let (b, fs3) := alloc_block fs2
      let fs4 := setInode fs3 ri.toNat
        { fs3.inodes ri.toNat with block := b, size := 5 * (DIRENT_SIZE : Int) }
      let ents0 : Nat → DirEnt := fun _ => zeroEnt
      let ents1 := fupd ents0 0 { zeroEnt with name := padName [46], inum := ri }
      let ents2 := fupd ents1 1 { zeroEnt with name := padName [46, 46], inum := ri }
      let fs5 := { fs4 with blocks := fupd fs4.blocks b.toNat ents2 }
      blocks_flush (blocks_set_root_block fs5 ri)

/-- storage_mknod from storage.c: split the path at its last slash, resolve
the parent, require a directory, fail -EEXIST when the name is present,
allocate an inode and then a block (rolling an allocation back when the
next step fails), and insert the entry into the parent; a failing insert
frees the new block and inode before the error is returned. -/
def storage_mknod (fs : FS) (path : List Nat) (mode : Nat) (now : Int) :
    Int × FS :=
  match lastIdxOf 47 path with
  | none => (-EINVAL, fs)
  | some li =>
    let filename := path.drop (li + 1)
    let pn := storage_lookup_path fs (parentPathOf path li)
    if pn < 0 then (pn, fs)
    else
      match get_inode fs pn with
      | none => (-ENOTDIR, fs)
      | some parent =>
        if ¬ S_ISDIR parent.mode then (-ENOTDIR, fs)
        else if 0 ≤ directory_lookup fs parent filename then (-EEXIST, fs)
        else
          let (inum, fs1) := alloc_inode fs now
          if inum < 0 then (-ENOSPC, fs1)
          else
            let fs2 := setInode fs1 inum.toNat
              { fs1.inodes inum.toNat with mode := mode, size := 0 }
            let (b, fs3) := alloc_block fs2
            let fs4 := setInode fs3 inum.toNat { fs3.inodes inum.toNat with block := b }
            if b < 0 then (-ENOSPC, free_inode fs4 inum)
            else
              let (rv, fs5) := directory_put fs4 pn filename inum now
              if rv < 0 then
                (rv, free_inode (free_block fs5 (fs5.inodes inum.toNat).block) inum)
              else (0, fs5)

/-- storage_mknod_at from storage.c: like storage_mknod with the parent
given by inode number, but the final directory_put result is returned
directly — a failing insert does not free the new inode or block. -/
def storage_mknod_at (fs : FS) (parent_inum : Int) (name : List Nat)
    (mode : Nat) (now : Int) : Int × FS :=
  match get_inode fs parent_inum with
  | none => (-ENOTDIR, fs)
  | some parent =>
    if ¬ S_ISDIR parent.mode then (-ENOTDIR, fs)
    else if 0 ≤ directory_lookup fs parent name then (-EEXIST, fs)
    else
      let (inum, fs1) := alloc_inode fs now
      if inum < 0 then (-ENOSPC, fs1)
      else
        let fs2 := setInode fs1 inum.toNat
          { fs1.inodes inum.toNat with mode := mode, size := 0 }
        let (b, fs3) := alloc_block fs2
        let fs4 := setInode fs3 inum.toNat { fs3.inodes inum.toNat with block := b }
        if b < 0 then (-ENOSPC, free_inode fs4 inum)
        else directory_put fs4 parent_inum name inum now

/-- storage_unlink from storage.c: split the path, resolve the parent,
require a directory, look the name up, fail -EISDIR for a directory
target; otherwise delete the directory entry first, then free the target's
block (the source tests node->block >= 0) and inode, and finally set the
parent's mtime and ctime. -/
def storage_unlink (fs : FS) (path : List Nat) (now : Int) : Int × FS :=
  match lastIdxOf 47 path with
  | none => (-EINVAL, fs)
  | some li =>
    let filename := path.drop (li + 1)
    let pn := storage_lookup_path fs (parentPathOf path li)
    if pn < 0 then (pn, fs)
    else
      match get_inode fs pn with
      | none => (-ENOTDIR, fs)
      | some parent =>
        if ¬ S_ISDIR parent.mode then (-ENOTDIR, fs)
        else
          let fi := directory_lookup fs parent filename
          if fi < 0 then (fi, fs)
          else
            match get_inode fs fi with
            | none => (-ENOENT, fs)
            | some node =>
              if S_ISDIR node.mode then (-EISDIR, fs)
              else
                let (rv, fs1) := directory_delete fs pn filename now
                if rv ≠ 0 then (rv, fs1)
                else
                  let fs2 := if 0 ≤ node.block then free_block fs1 node.block else fs1
                  let fs3 := free_inode fs2 fi
                  let fs4 := setInode fs3 pn.toNat
                    { fs3.inodes pn.toNat with mtime := now, ctime := now }
                  (0, fs4)

/-- Block-allocating loop of storage_write: for file-block indices i from
current_blocks to required_blocks - 1 allocate a block, stopping with
-ENOSPC (keeping earlier allocations) on failure; only iteration i = 0
stores the pointer into the inode. -/
def writeAllocLoop (fs : FS) (inum : Nat) (i : Int) : Nat → Int × FS
  | 0 => (0, fs)
  | cnt + 1 =>
    let (nb, fs1) := alloc_block fs
    if nb < 0 then (-ENOSPC, fs1)
    else
      let fs2 :=
        if i = 0 then setInode fs1 inum { fs1.inodes inum with block := nb } else fs1
      writeAllocLoop fs2 inum (i + 1) cnt

/-- storage_write from storage.c: resolve the path (-ENOENT on any failure),
require a regular file (-EISDIR otherwise), allocate blocks when
required_blocks exceeds current_blocks (storing at most the i = 0 pointer),
copy the buffer into the file's block at the offset, grow size when the
write extends past it, and return the byte count. -/
def storage_write (fs : FS) (path : List Nat) (buf : Nat → Nat) (size : Nat)
    (offset : Nat) : Int × FS :=
  let inum := storage_lookup_path fs path
  if inum < 0 then (-ENOENT, fs)
  else
    match get_inode fs inum with
    | none => (-EISDIR, fs)
    | some node =>
      if ¬ S_ISREG node.mode then (-EISDIR, fs)
      else
        let required : Int := ((offset : Int) + (size : Int) + 4095) / 4096
        let current : Int := (node.size + 4095) / 4096
        let (rv, fsA) :=
          if current < required then
            writeAllocLoop fs inum.toNat current (required - current).toNat
          else (0, fs)
        if rv < 0 then (rv, fsA)
        else
          let blk := (fsA.inodes inum.toNat).block.toNat
          let fsB := { fsA with
            data := fupd fsA.data blk
              (fun k => if offset ≤ k ∧ k < offset + size then buf (k - offset)
                        else fsA.data blk k) }
          let node' := fsB.inodes inum.toNat
          let fsC :=
            if node'.size < (offset : Int) + (size : Int) then
              setInode fsB inum.toNat
                { node' with size := (offset : Int) + (size : Int) }
            else fsB
          ((size : Int), fsC)

/- ============================ nufs.c layer =============================== -/

/-- Return code of nufs_getattr from nufs.c: any storage_lookup_path failure
or null inode becomes -ENOENT; success is 0 (the filled stat data is not
needed by the verified claims). -/
def nufs_getattr_rv (fs : FS) (path : List Nat) : Int :=
  let inum := storage_lookup_path fs path
  if inum < 0 then -ENOENT
  else
    match get_inode fs inum with
    | none => -ENOENT
    | some _ => 0

/-- nufs_truncate from nufs.c: resolve the path (-ENOENT on failure or null
inode) and set the inode's size field to the requested value — there is no
file-type check. -/
def nufs_truncate (fs : FS) (path : List Nat) (size : Int) : Int × FS :=
  let inum := storage_lookup_path fs path
  if inum < 0 then (-ENOENT, fs)
  else
    match get_inode fs inum with
    | none => (-ENOENT, fs)
    | some node => (0, setInode fs inum.toNat { node with size := size })

/-- nufs_rename from nufs.c: both paths must be absolute; resolve the source
inode and both parents; insert (to-basename, source inum) into the target
parent first, then delete the source basename from the source parent,
undoing the insert when the delete fails. -/
def nufs_rename (fs : FS) (fromPath toPath : List Nat) (now : Int) : Int × FS :=
  if ¬ (fromPath.getD 0 0 = 47 ∧ toPath.getD 0 0 = 47) then (-EINVAL, fs)
  else
    let from_inum := storage_lookup_path fs fromPath
    if from_inum < 0 then (from_inum, fs)
    else
      match lastIdxOf 47 fromPath with
      | none => (-EINVAL, fs)
      | some fli =>
        match lastIdxOf 47 toPath with
        | none => (-EINVAL, fs)
        | some tli =>
          let from_name := fromPath.drop (fli + 1)
          let to_name := toPath.drop (tli + 1)
          let from_parent := storage_lookup_path fs (parentPathOf fromPath fli)
          let to_parent := storage_lookup_path fs (parentPathOf toPath tli)
          if from_parent < 0 ∨ to_parent < 0 then (-ENOENT, fs)
          else
            let (rv1, fs1) := directory_put fs to_parent to_name from_inum now
            if rv1 < 0 then (rv1, fs1)
            else
              let (rv2, fs2) := directory_delete fs1 from_parent from_name now
              if rv2 < 0 then
                let (_, fs3) := directory_delete fs2 to_parent to_name now
                (rv2, fs3)
              else (0, fs2)

/-- nufs_unlink from nufs.c: same resolution and -EISDIR check as
storage_unlink, but with the compacting entry removal inlined (matching by
strcmp over the live prefix, without the tombstone guard) before the block
and inode are freed and the parent's mtime and ctime are set. -/
def nufs_unlink (fs : FS) (path : List Nat) (now : Int) : Int × FS :=
  match lastIdxOf 47 path with
  | none => (-EINVAL, fs)
  | some li =>
    let filename := path.drop (li + 1)
    let pn := storage_lookup_path fs (parentPathOf path li)
    if pn < 0 then (pn, fs)
    else
      match get_inode fs pn with
      | none => (-ENOTDIR, fs)
      | some parent =>
        if ¬ S_ISDIR parent.mode then (-ENOTDIR, fs)
        else
          let fi := directory_lookup fs parent filename
          if fi < 0 then (fi, fs)
          else
            match get_inode fs fi with
            | none => (-ENOENT, fs)
            | some node =>
              if S_ISDIR node.mode then (-EISDIR, fs)
              else
                let ents := fs.blocks parent.block.toNat
                let count := dirCount parent
                match scanFirst (fun i => cstr (ents i).name == filename) count with
                | none => (-ENOENT, fs)
                | some i =>
                  let parent' := { parent with size := parent.size - (DIRENT_SIZE : Int) }
                  let fs1 := { fs with
                    blocks := fupd fs.blocks parent.block.toNat (deleteShift ents i count)
                    inodes := fupd fs.inodes pn.toNat parent' }
                  let fs2 := if 0 ≤ node.block then free_block fs1 node.block else fs1
                  let fs3 := free_inode fs2 fi
                  let fs4 := setInode fs3 pn.toNat
                    { fs3.inodes pn.toNat with mtime := now, ctime := now }
                  (0, fs4)

/- ======================= invariants and test states ====================== -/

/-- A directory record that is entirely zero bytes. -/
def isZeroEnt (e : DirEnt) : Bool := e == zeroEnt

/-- Directory packing for one inode (spec section 8, invariant 2): every
entry of the live prefix has a non-NUL first name byte, and the record
immediately after the live prefix, when the block has one, is all zeros. -/
def dirPackedB (fs : FS) (n : Nat) : Bool :=
  let nd := fs.inodes n
  let ents := fs.blocks nd.block.toNat
  let count := dirCount nd
  ((List.range count).all fun i => nb0 (ents i) != 0) &&
  (decide (DIR_CAPACITY ≤ count) || isZeroEnt (ents count))

/-- Directory packing over every allocated directory inode. -/
def packingInvB (fs : FS) : Bool :=
  (List.range INODE_COUNT).all fun n =>
    !(fs.inodeBitmap n && S_ISDIR (fs.inodes n).mode) || dirPackedB fs n

/-- Block-bitmap faithfulness (spec section 8, invariant 1): a block bit is
set exactly when the block is a header/table block or is the block of some
allocated inode. -/
def blockFaithB (fs : FS) : Bool :=
  (List.range BLOCK_COUNT).all fun b =>
    fs.blockBitmap b ==
      (decide (b < RESERVED_BLOCKS) ||
        (List.range INODE_COUNT).any fun n =>
          fs.inodeBitmap n && (fs.inodes n).block == (b : Int))

/-- Some live entry of some allocated directory references inode n. -/
def entryRefsB (fs : FS) (n : Nat) : Bool :=
  (List.range INODE_COUNT).any fun d =>
    fs.inodeBitmap d && S_ISDIR (fs.inodes d).mode &&
      ((List.range (dirCount (fs.inodes d))).any fun i =>
        nb0 ((fs.blocks (fs.inodes d).block.toNat) i) != 0 &&
          ((fs.blocks (fs.inodes d).block.toNat) i).inum == (n : Int))

/-- Inode-bitmap faithfulness: an inode bit is set exactly when a live
directory entry references it or it is the persisted root. -/
def inodeFaithB (fs : FS) : Bool :=
  (List.range INODE_COUNT).all fun n =>
    fs.inodeBitmap n == (entryRefsB fs n || (n : Int) == fs.rootSlot)

/-- Both halves of the bitmap-faithfulness invariant. -/
def bitmapFaithB (fs : FS) : Bool := blockFaithB fs && inodeFaithB fs

/-- Observational equality of two images: equal bitmaps, root slot,
directory-entry and data views, and equal inode records at every index the
first image has allocated.  (A freed inode's record keeps scratch values in
the source, so rollback restores the image only up to those bytes.) -/
def obsEq (a b : FS) : Prop :=
  (∀ n, n < BLOCK_COUNT → a.blockBitmap n = b.blockBitmap n) ∧
  (∀ n, n < INODE_COUNT → a.inodeBitmap n = b.inodeBitmap n) ∧
  a.rootSlot = b.rootSlot ∧
  (∀ n, n < INODE_COUNT → a.inodeBitmap n = true → a.inodes n = b.inodes n) ∧
  (∀ c, c < BLOCK_COUNT → ∀ i, i < DIR_CAPACITY → a.blocks c i = b.blocks c i) ∧
  (∀ c, c < BLOCK_COUNT → ∀ k, k < BLOCK_SIZE → a.data c k = b.data c k)

/-- The image right after storage_init on a fresh backing file, at time 100. -/
def fsInit : FS := storage_init freshImage 100

/-- fsInit after mknod("/x", REG|0644) at time 101: scenario step used by
several claims ("x" is byte 120). -/
def mkx : Int × FS := storage_mknod fsInit [47, 120] MODE_REG_0644 101

/-- mkx after rename("/x", "/y") at time 102 ("y" is byte 121). -/
def rnxy : Int × FS := nufs_rename mkx.2 [47, 120] [47, 121] 102

/-- mkx after a first 1-byte write to "/x" at offset 0. -/
def wrx : Int × FS := storage_write mkx.2 [47, 120] (fun _ => 104) 1 0

/-- Live entry i of the full root directory used as a concrete test state. -/
def fullRootEnt (i : Nat) : DirEnt :=
  { name := padName [128 + i], inum := 0, reserved := List.replicate 12 0 }

/-- A valid image whose root directory (inode 0, block 5) holds 64 live
entries, so that directory insertion must fail with no space. -/
def fullRoot : FS :=
  { blockBitmap := fun b => decide (b < 6)
    inodeBitmap := fun n => n == 0
    rootSlot := 0
    inodes := fun n =>
      if n = 0 then
        { inum := 0, refs := 1, mode := 16877, size := 4096, block := 5
          atime := 0, mtime := 0, ctime := 0 }
      else zeroInode
    blocks := fun b i => if b = 5 ∧ i < 64 then fullRootEnt i else zeroEnt
    data := fun _ _ => 0 }

/-- State of the image after a successful alloc_inode that picked index i. -/
def allocInodeFS (fs : FS) (now : Int) (i : Nat) : FS :=
  { fs with
    inodeBitmap := fupd fs.inodeBitmap i true
    inodes := fupd fs.inodes i
      { inum := (i : Int), refs := 1, mode := 0, size := 0, block := 0
        atime := now, mtime := now, ctime := now } }

/-- State of the image after a successful alloc_block that picked index b. -/
def allocBlockFS (fs : FS) (b : Nat) : FS :=
  { fs with blockBitmap := fupd fs.blockBitmap b true }

/- ============================ lemma toolkit ============================== -/

set_option maxRecDepth 100000

/-- Reading the updated index returns the written value. -/
theorem fupd_self {α : Type} (f : Nat → α) (i : Nat) (v : α) : fupd f i v i = v := by
  simp [fupd]

/-- Reading any other index is unchanged. -/
theorem fupd_other {α : Type} (f : Nat → α) (i : Nat) (v : α) {j : Nat}
    (h : j ≠ i) : fupd f i v j = f j := by
  simp [fupd, h]

/-- A scan that found nothing: every index below the bound fails the
predicate. -/
theorem scanFirst_none {p : Nat → Bool} :
    ∀ {n : Nat}, scanFirst p n = none → ∀ j, j < n → p j = false := by
  intro n
  induction n with
  | zero => intro _ j hj; omega
  | succ m ih =>
    intro h j hj
    unfold scanFirst at h
    cases hm : scanFirst p m with
    | some k => rw [hm] at h; cases h
    | none =>
      rw [hm] at h
      by_cases hp : p m = true
      · simp [hp] at h
      · rcases Nat.lt_succ_iff_lt_or_eq.mp hj with hlt | heq
        · exact ih hm j hlt
        · subst heq; simpa using hp

/-- scanFirst returns an index below its bound satisfying the predicate,
with every smaller index failing it. -/
theorem scanFirst_some {p : Nat → Bool} :
    ∀ {n i : Nat}, scanFirst p n = some i →
      i < n ∧ p i = true ∧ ∀ j, j < i → p j = false := by
  intro n
  induction n with
  | zero => intro i h; cases h
  | succ m ih =>
    intro i h
    unfold scanFirst at h
    cases hm : scanFirst p m with
    | some k =>
      rw [hm] at h
      cases h
      rcases ih hm with ⟨h1, h2, h3⟩
      exact ⟨Nat.lt_succ_of_lt h1, h2, h3⟩
    | none =>
      rw [hm] at h
      by_cases hp : p m = true
      · simp [hp] at h
        subst h
        exact ⟨Nat.lt_succ_self m, hp, scanFirst_none hm⟩
      · simp [hp] at h

/-- Completeness of the failing scan. -/
theorem scanFirst_eq_none {p : Nat → Bool} :
    ∀ {n : Nat}, (∀ j, j < n → p j = false) → scanFirst p n = none := by
  intro n
  induction n with
  | zero => intro _; rfl
  | succ m ih =>
    intro h
    unfold scanFirst
    rw [ih (fun j hj => h j (Nat.lt_succ_of_lt hj))]
    simp [h m (Nat.lt_succ_self m)]

/-- Completeness of the successful scan at the first satisfying index. -/
theorem scanFirst_eq_some {p : Nat → Bool} :
    ∀ {n i : Nat}, i < n → p i = true → (∀ j, j < i → p j = false) →
      scanFirst p n = some i := by
  intro n
  induction n with
  | zero => intro i h; omega
  | succ m ih =>
    intro i hin hp hmin
    unfold scanFirst
    rcases Nat.lt_succ_iff_lt_or_eq.mp hin with hlt | heq
    · rw [ih hlt hp hmin]
    · subst heq
      rw [scanFirst_eq_none hmin]
      simp [hp]

/-- Scans of pointwise-equal predicates agree. -/
theorem scanFirst_congr {p q : Nat → Bool} :
    ∀ {n : Nat}, (∀ j, j < n → p j = q j) → scanFirst p n = scanFirst q n := by
  intro n
  induction n with
  | zero => intro _; rfl
  | succ m ih =>
    intro h
    unfold scanFirst
    rw [ih (fun j hj => h j (Nat.lt_succ_of_lt hj)), h m (Nat.lt_succ_self m)]

/-- Observational equality is reflexive. -/
theorem obsEq_refl (fs : FS) : obsEq fs fs := by
  refine ⟨fun _ _ => rfl, fun _ _ => rfl, rfl, fun _ _ _ => rfl,
    fun _ _ _ _ => rfl, fun _ _ _ _ => rfl⟩

/-- Shape of a successful alloc_inode, driven by the bitmap scan. -/
theorem alloc_inode_eq {fs : FS} {now : Int} {i : Nat}
    (h : scanFirst (fun n => !fs.inodeBitmap n) INODE_COUNT = some i) :
    alloc_inode fs now = ((i : Int), allocInodeFS fs now i) := by
  unfold alloc_inode
  rw [h]
  rfl

/-- Shape of a failing alloc_inode. -/
theorem alloc_inode_none {fs : FS} {now : Int}
    (h : scanFirst (fun n => !fs.inodeBitmap n) INODE_COUNT = none) :
    alloc_inode fs now = (-1, fs) := by
  unfold alloc_inode
  rw [h]

/-- Shape of a successful alloc_block, driven by the bitmap scan. -/
theorem alloc_block_eq {fs : FS} {b : Nat}
    (h : scanFirst (fun c => !fs.blockBitmap c) BLOCK_COUNT = some b) :
    alloc_block fs = ((b : Int), allocBlockFS fs b) := by
  unfold alloc_block
  rw [h]
  rfl

/-- Shape of a failing alloc_block. -/
theorem alloc_block_none {fs : FS}
    (h : scanFirst (fun c => !fs.blockBitmap c) BLOCK_COUNT = none) :
    alloc_block fs = (-1, fs) := by
  unfold alloc_block
  rw [h]

/-- A failing directory_put leaves the image untouched. -/
theorem directory_put_err {fs : FS} {dnum : Int} {name : List Nat}
    {inum now : Int} (h : (directory_put fs dnum name inum now).1 < 0) :
    (directory_put fs dnum name inum now).2 = fs := by
  cases hg : get_inode fs dnum with
  | none => simp [directory_put, hg]
  | some dir =>
    by_cases hd : S_ISDIR dir.mode
    · cases hs : scanFirst
          (fun i => nb0 (fs.blocks dir.block.toNat i) == 0)
          (dirCount dir) with
      | some i =>
        exfalso
        unfold directory_put at h
        simp [hg, hd, hs] at h
      | none =>
        by_cases hc : DIR_CAPACITY ≤ dirCount dir
        · simp [directory_put, hg, hd, hs, hc]
        · exfalso
          unfold directory_put at h
          simp [hg, hd, hs, hc] at h
    · simp [directory_put, hg, hd]

/-- A failing directory_delete leaves the image untouched. -/
theorem directory_delete_err {fs : FS} {dnum : Int} {name : List Nat}
    {now : Int} (h : (directory_delete fs dnum name now).1 ≠ 0) :
    (directory_delete fs dnum name now).2 = fs := by
  cases hg : get_inode fs dnum with
  | none => simp [directory_delete, hg]
  | some dir =>
    by_cases hd : S_ISDIR dir.mode
    · cases hs : scanFirst
          (fun i => nb0 (fs.blocks dir.block.toNat i) != 0 &&
            cstr (fs.blocks dir.block.toNat i).name == name)
          (dirCount dir) with
      | some i =>
        exfalso
        unfold directory_delete at h
        simp [hg, hd, hs] at h
      | none => simp [directory_delete, hg, hd, hs]
    · simp [directory_delete, hg, hd]

/- ====================== claim theorems: closed facts ===================== -/

/-- C1: "Directory packing invariant: after any sequence of successful
calls, for every directory inode the first size/E entries of its block form
the live prefix, no live entry has a NUL first byte, and the record after
the live prefix (if any) is all zeros; in particular this must hold for the
root directory immediately after a fresh storage_init."  The claim fails on
the code: storage_init sets the fresh root's size to 5 entries while
writing only "." and "..", so the live prefix of the allocated root
directory contains entries (2, 3 and 4) whose first name byte is NUL. -/
theorem c1_packing_broken_after_fresh_storage_init :
    packingInvB fsInit = false ∧
    fsInit.inodeBitmap 0 = true ∧ S_ISDIR (fsInit.inodes 0).mode = true ∧
    dirCount (fsInit.inodes 0) = 5 ∧
    nb0 (fsInit.blocks 5 2) = 0 ∧ dirPackedB fsInit 0 = false := by decide

/-- C2: "Bitmap faithfulness invariant ... in particular it still holds
after mknod of an empty file followed by a first write to that file."  The
claim fails on the code: mknod("/x") gives inode 1 block 6, but the first
write recomputes current_blocks from size 0 as 0, allocates a fresh block 7
and overwrites inode 1's pointer, leaving bit 6 set with no inode
referencing block 6. -/
theorem c2_bitmap_faithfulness_broken_by_first_write :
    mkx.1 = 0 ∧ wrx.1 = 1 ∧
    blockFaithB mkx.2 = true ∧
    bitmapFaithB wrx.2 = false ∧
    wrx.2.blockBitmap 6 = true ∧
    ((List.range INODE_COUNT).all fun n =>
      !(wrx.2.inodeBitmap n && (wrx.2.inodes n).block == (6 : Int))) = true ∧
    (wrx.2.inodes 1).block = 7 := by decide

/-- C3: "Root initialization: when storage_init finds the persisted root
inode number invalid it allocates a fresh inode with mode DIR | 0755,
allocates a block, writes '.' and '..' entries at indices 0 and 1 pointing
to the new inode, sets the directory's size to 2 × E, persists the root
inode number, and flushes."  Everything holds on a fresh image except the
size: storage.c line 44 writes 5 * sizeof(dir_entry_t) = 320, not
2 × E = 128. -/
theorem c3_storage_init_sets_root_size_five_entries :
    fsInit.rootSlot = 0 ∧
    fsInit.inodeBitmap 0 = true ∧
    (fsInit.inodes 0).mode = MODE_DIR_0755 ∧
    (fsInit.inodes 0).block = 5 ∧ fsInit.blockBitmap 5 = true ∧
    cstr (fsInit.blocks 5 0).name = [46] ∧ (fsInit.blocks 5 0).inum = 0 ∧
    cstr (fsInit.blocks 5 1).name = [46, 46] ∧ (fsInit.blocks 5 1).inum = 0 ∧
    (fsInit.inodes 0).size = 5 * 64 ∧ ¬ (fsInit.inodes 0).size = 2 * 64 := by
  decide

/-- C5: scenario S4 — from a fresh image, mknod("/x", REG|0644) succeeds
with inode 1, rename("/x", "/y") succeeds, and afterwards
lookup_path("/x") is -ENOENT while lookup_path("/y") is still 1. -/
theorem c5_rename_round_trip :
    mkx.1 = 0 ∧ storage_lookup_path mkx.2 [47, 120] = 1 ∧
    rnxy.1 = 0 ∧
    storage_lookup_path rnxy.2 [47, 120] = -ENOENT ∧
    storage_lookup_path rnxy.2 [47, 121] = 1 := by decide

/-- C4 counterexample: on an image whose root directory is full,
storage_mknod_at(0, "a", REG|0644) fails with -ENOSPC from the directory
insertion but leaves the freshly allocated inode 1 and block 6 marked
allocated — the claimed rollback does not happen for mknod_at. -/
theorem c4_mknod_at_leak_counterexample :
    (storage_mknod_at fullRoot 0 [97] MODE_REG_0644 9).1 = -ENOSPC ∧
    (storage_mknod_at fullRoot 0 [97] MODE_REG_0644 9).2.inodeBitmap 1 = true ∧
    fullRoot.inodeBitmap 1 = false ∧
    (storage_mknod_at fullRoot 0 [97] MODE_REG_0644 9).2.blockBitmap 6 = true ∧
    fullRoot.blockBitmap 6 = false := by decide

/-- C7 counterexample: a successful directory_put that reuses a tombstone
slot (slot 2 of the fresh root, whose mtime is 100) returns 0 at time 777
but leaves mtime at 100 — "on every successful put the mtime is updated"
fails on the code. -/
theorem c7_reuse_put_does_not_touch_mtime :
    (directory_put fsInit 0 [122] 9 777).1 = 0 ∧
    ((directory_put fsInit 0 [122] 9 777).2.inodes 0).mtime = 100 ∧
    ¬ ((directory_put fsInit 0 [122] 9 777).2.inodes 0).mtime = 777 := by
  decide

/-- C9 counterexample: path resolution of "/x/z" over a regular file "/x"
produces -ENOTDIR, but nufs_getattr and storage_write both surface -ENOENT
instead — the error is not returned unchanged. -/
theorem c9_enotdir_becomes_enoent :
    storage_lookup_path mkx.2 [47, 120, 47, 122] = -ENOTDIR ∧
    nufs_getattr_rv mkx.2 [47, 120, 47, 122] = -ENOENT ∧
    (storage_write mkx.2 [47, 120, 47, 122] (fun _ => 0) 1 0).1 = -ENOENT ∧
    ¬ (-ENOENT : Int) = -ENOTDIR := by decide

/- ==================== claim theorems: general lemmas ===================== -/

/-- C10: truncate performs no file-type check — for every path that
resolves to an in-range inode (directories included) nufs_truncate returns
0 and stores the requested size in that inode, touching nothing else; a
nonzero result is -ENOENT and happens only when resolution fails (or
resolves outside the inode table, impossible on a valid image), leaving
the image unchanged. -/
theorem c10_truncate_no_type_check :
    (∀ fs path size, storage_lookup_path fs path < 0 →
      nufs_truncate fs path size = (-ENOENT, fs)) ∧
    (∀ fs path size i, storage_lookup_path fs path = i → 0 ≤ i →
      i < (INODE_COUNT : Int) →
      (nufs_truncate fs path size).1 = 0 ∧
      ((nufs_truncate fs path size).2.inodes i.toNat).size = size ∧
      ((nufs_truncate fs path size).2.inodes i.toNat).mode =
        (fs.inodes i.toNat).mode ∧
      (∀ n, n ≠ i.toNat → (nufs_truncate fs path size).2.inodes n = fs.inodes n) ∧
      (nufs_truncate fs path size).2.blocks = fs.blocks ∧
      (nufs_truncate fs path size).2.blockBitmap = fs.blockBitmap ∧
      (nufs_truncate fs path size).2.inodeBitmap = fs.inodeBitmap) ∧
    (∀ fs path size, (nufs_truncate fs path size).1 ≠ 0 →
      (nufs_truncate fs path size).1 = -ENOENT ∧
      (nufs_truncate fs path size).2 = fs ∧
      (storage_lookup_path fs path < 0 ∨
        (INODE_COUNT : Int) ≤ storage_lookup_path fs path)) := by
  refine ⟨?_, ?_, ?_⟩
  · intro fs path size h
    simp [nufs_truncate, h]
  · intro fs path size i hl h0 hlt
    have hnneg : ¬ i < 0 := by omega
    have hg : get_inode fs i = some (fs.inodes i.toNat) := by
      simp [get_inode, h0, hlt]
    simp only [nufs_truncate, hl, hnneg, if_false, hg, setInode]
    refine ⟨trivial, ?_, ?_, ?_, trivial, trivial, trivial⟩
    · simp [fupd]
    · simp [fupd]
    · intro n hn
      simp [fupd, hn]
  · intro fs path size h
    by_cases hl : storage_lookup_path fs path < 0
    · simp [nufs_truncate, hl]
    · cases hg : get_inode fs (storage_lookup_path fs path) with
      | some node =>
        exfalso
        simp [nufs_truncate, hl, hg] at h
      | none =>
        have : ¬ (0 ≤ storage_lookup_path fs path ∧
            storage_lookup_path fs path < (INODE_COUNT : Int)) := by
          intro hc
          simp [get_inode, hc.1, hc.2] at hg
        refine ⟨?_, ?_, ?_⟩
        · simp [nufs_truncate, hl, hg]
        · simp [nufs_truncate, hl, hg]
        · right; omega

/-- C10 witness: truncating the root directory of a fresh image to 448
bytes succeeds and stores the size even though the target is a directory. -/
theorem c10_witness :
    (nufs_truncate fsInit [47] 448).1 = 0 ∧
    ((nufs_truncate fsInit [47] 448).2.inodes 0).size = 448 ∧
    S_ISDIR ((nufs_truncate fsInit [47] 448).2.inodes 0).mode = true := by
  have h := c10_truncate_no_type_check.2.1 fsInit [47] 448 0 (by decide)
    (by decide) (by decide)
  refine ⟨h.1, h.2.1, ?_⟩
  have h3 : ((nufs_truncate fsInit [47] 448).2.inodes 0).mode =
      (fsInit.inodes 0).mode := h.2.2.1
  rw [h3]
  decide

/-- C9 (amended): errors are not always propagated unchanged — the
callers that test only inum < 0 (nufs_getattr, storage_write) replace the
path-resolution error by -ENOENT, while storage_mknod and storage_unlink
return the parent-resolution error exactly as produced. -/
theorem c9_error_propagation_amended :
    (∀ fs path, storage_lookup_path fs path < 0 →
      nufs_getattr_rv fs path = -ENOENT) ∧
    (∀ fs path buf size offset, storage_lookup_path fs path < 0 →
      storage_write fs path buf size offset = (-ENOENT, fs)) ∧
    (∀ fs path mode now li, lastIdxOf 47 path = some li →
      storage_lookup_path fs (parentPathOf path li) < 0 →
      storage_mknod fs path mode now =
        (storage_lookup_path fs (parentPathOf path li), fs)) ∧
    (∀ fs path now li, lastIdxOf 47 path = some li →
      storage_lookup_path fs (parentPathOf path li) < 0 →
      storage_unlink fs path now =
        (storage_lookup_path fs (parentPathOf path li), fs)) := by
  refine ⟨?_, ?_, ?_, ?_⟩
  · intro fs path h
    simp [nufs_getattr_rv, h]
  · intro fs path buf size offset h
    simp [storage_write, h]
  · intro fs path mode now li hli h
    simp [storage_mknod, hli, h]
  · intro fs path now li hli h
    simp [storage_unlink, hli, h]

/-- C9 witness: applying the amended propagation statement at the concrete
image holding the regular file "/x" and the path "/x/z". -/
theorem c9_witness :
    nufs_getattr_rv mkx.2 [47, 120, 47, 122] = -ENOENT := by
  exact c9_error_propagation_amended.1 mkx.2 [47, 120, 47, 122] (by decide)

/-- Shape of a directory_put that reuses the tombstone slot found by the
scan. -/
theorem directory_put_reuse {fs : FS} {dnum : Int} {name : List Nat}
    {inum now : Int} {dir : Inode} {i : Nat}
    (hg : get_inode fs dnum = some dir) (hd : S_ISDIR dir.mode = true)
    (hscan : scanFirst (fun k => nb0 (fs.blocks dir.block.toNat k) == 0)
      (dirCount dir) = some i) :
    directory_put fs dnum name inum now =
      (0, { fs with blocks := (fupd fs.blocks dir.block.toNat
        (fupd (fs.blocks dir.block.toNat) i
          { name := padName name, inum := inum
            reserved := (fs.blocks dir.block.toNat i).reserved })) }) := by
  unfold directory_put
  rw [hg]
  simp [hd, hscan]

/-- Shape of a directory_put that appends at index count. -/
theorem directory_put_append {fs : FS} {dnum : Int} {name : List Nat}
    {inum now : Int} {dir : Inode}
    (hg : get_inode fs dnum = some dir) (hd : S_ISDIR dir.mode = true)
    (hscan : scanFirst (fun k => nb0 (fs.blocks dir.block.toNat k) == 0)
      (dirCount dir) = none)
    (hc : dirCount dir < DIR_CAPACITY) :
    directory_put fs dnum name inum now =
      (0, { fs with
        blocks := (fupd fs.blocks dir.block.toNat
          (fupd (fs.blocks dir.block.toNat) (dirCount dir)
            { name := padName name, inum := inum
              reserved := (fs.blocks dir.block.toNat (dirCount dir)).reserved }))
        inodes := (fupd fs.inodes dnum.toNat
          { dir with size := dir.size + (DIRENT_SIZE : Int), mtime := now }) }) := by
  unfold directory_put
  rw [hg]
  have hc' : ¬ DIR_CAPACITY ≤ dirCount dir := by omega
  simp [hd, hscan, hc']

/-- Shape of a directory_put that fails for lack of space. -/
theorem directory_put_full {fs : FS} {dnum : Int} {name : List Nat}
    {inum now : Int} {dir : Inode}
    (hg : get_inode fs dnum = some dir) (hd : S_ISDIR dir.mode = true)
    (hscan : scanFirst (fun k => nb0 (fs.blocks dir.block.toNat k) == 0)
      (dirCount dir) = none)
    (hc : DIR_CAPACITY ≤ dirCount dir) :
    directory_put fs dnum name inum now = (-ENOSPC, fs) := by
  unfold directory_put
  rw [hg]
  simp [hd, hscan, hc]

/-- Shape of a directory_delete whose scan found the entry. -/
theorem directory_delete_found {fs : FS} {dnum : Int} {name : List Nat}
    {now : Int} {dir : Inode} {i : Nat}
    (hg : get_inode fs dnum = some dir) (hd : S_ISDIR dir.mode = true)
    (hscan : scanFirst
      (fun k => nb0 (fs.blocks dir.block.toNat k) != 0 &&
        cstr (fs.blocks dir.block.toNat k).name == name)
      (dirCount dir) = some i) :
    directory_delete fs dnum name now =
      (0, { fs with
        blocks := (fupd fs.blocks dir.block.toNat
          (deleteShift (fs.blocks dir.block.toNat) i (dirCount dir)))
        inodes := (fupd fs.inodes dnum.toNat
          { dir with size := dir.size - (DIRENT_SIZE : Int), mtime := now }) }) := by
  unfold directory_delete
  rw [hg]
  simp [hd, hscan]

/-- Shape of a directory_delete whose scan found nothing. -/
theorem directory_delete_missing {fs : FS} {dnum : Int} {name : List Nat}
    {now : Int} {dir : Inode}
    (hg : get_inode fs dnum = some dir) (hd : S_ISDIR dir.mode = true)
    (hscan : scanFirst
      (fun k => nb0 (fs.blocks dir.block.toNat k) != 0 &&
        cstr (fs.blocks dir.block.toNat k).name == name)
      (dirCount dir) = none) :
    directory_delete fs dnum name now = (-ENOENT, fs) := by
  unfold directory_delete
  rw [hg]
  simp [hd, hscan]

/-- cstr ignores a zero-padded tail. -/
theorem cstr_append_zeros :
    ∀ (l : List Nat) (m : Nat), cstr (l ++ List.replicate m 0) = cstr l := by
  intro l m
  induction l with
  | nil =>
    simp only [List.nil_append, cstr]
    cases m with
    | zero => rfl
    | succ k => simp [List.replicate_succ]
  | cons a as ih =>
    by_cases ha : a = 0
    · simp [cstr, ha]
    · have hb : (a != 0) = true := by simpa using ha
      simp only [cstr, List.cons_append, List.takeWhile_cons, hb, cond_true,
        if_true] at ih ⊢
      rw [ih]

/-- C7 (amended): directory_put fails -ENOTDIR unless the inode is a
directory; it first reuses the first live-prefix slot whose name starts
with NUL — leaving size and mtime (and every inode record) untouched —
and otherwise appends at index count, adding E to size and setting mtime;
it fails -ENOSPC exactly when it would have to append and the live prefix
fills the block (count = B/E whenever size ≤ B); the stored name is
truncated to L−1 bytes and NUL-terminated.  (The original claim's "mtime
is updated on every successful put" fails on the reuse path.) -/
theorem c7_directory_put_amended :
    (∀ fs dnum name inum now, get_inode fs dnum = none →
      directory_put fs dnum name inum now = (-ENOTDIR, fs)) ∧
    (∀ fs dnum name inum now dir, get_inode fs dnum = some dir →
      S_ISDIR dir.mode = false →
      directory_put fs dnum name inum now = (-ENOTDIR, fs)) ∧
    (∀ fs dnum name inum now dir i, get_inode fs dnum = some dir →
      S_ISDIR dir.mode = true →
      i < dirCount dir → nb0 (fs.blocks dir.block.toNat i) = 0 →
      (∀ j, j < i → nb0 (fs.blocks dir.block.toNat j) ≠ 0) →
      (directory_put fs dnum name inum now).1 = 0 ∧
      (directory_put fs dnum name inum now).2.blocks dir.block.toNat i =
        { name := padName name, inum := inum
          reserved := (fs.blocks dir.block.toNat i).reserved } ∧
      (∀ j, j ≠ i →
        (directory_put fs dnum name inum now).2.blocks dir.block.toNat j =
          fs.blocks dir.block.toNat j) ∧
      (∀ c, c ≠ dir.block.toNat →
        (directory_put fs dnum name inum now).2.blocks c = fs.blocks c) ∧
      (directory_put fs dnum name inum now).2.inodes = fs.inodes ∧
      (directory_put fs dnum name inum now).2.inodeBitmap = fs.inodeBitmap ∧
      (directory_put fs dnum name inum now).2.blockBitmap = fs.blockBitmap) ∧
    (∀ fs dnum name inum now dir, get_inode fs dnum = some dir →
      S_ISDIR dir.mode = true →
      (∀ j, j < dirCount dir → nb0 (fs.blocks dir.block.toNat j) ≠ 0) →
      dirCount dir < DIR_CAPACITY →
      (directory_put fs dnum name inum now).1 = 0 ∧
      (directory_put fs dnum name inum now).2.blocks dir.block.toNat
          (dirCount dir) =
        { name := padName name, inum := inum
          reserved := (fs.blocks dir.block.toNat (dirCount dir)).reserved } ∧
      (∀ j, j ≠ dirCount dir →
        (directory_put fs dnum name inum now).2.blocks dir.block.toNat j =
          fs.blocks dir.block.toNat j) ∧
      (∀ c, c ≠ dir.block.toNat →
        (directory_put fs dnum name inum now).2.blocks c = fs.blocks c) ∧
      (directory_put fs dnum name inum now).2.inodes dnum.toNat =
        { dir with size := dir.size + (DIRENT_SIZE : Int), mtime := now } ∧
      (∀ n, n ≠ dnum.toNat →
        (directory_put fs dnum name inum now).2.inodes n = fs.inodes n)) ∧
    (∀ fs dnum name inum now dir, get_inode fs dnum = some dir →
      S_ISDIR dir.mode = true →
      (∀ j, j < dirCount dir → nb0 (fs.blocks dir.block.toNat j) ≠ 0) →
      DIR_CAPACITY ≤ dirCount dir →
      directory_put fs dnum name inum now = (-ENOSPC, fs)) ∧
    (∀ fs dnum name inum now dir, get_inode fs dnum = some dir →
      S_ISDIR dir.mode = true →
      (directory_put fs dnum name inum now).1 = -ENOSPC →
      (∀ j, j < dirCount dir → nb0 (fs.blocks dir.block.toNat j) ≠ 0) ∧
      DIR_CAPACITY ≤ dirCount dir ∧
      (dir.size ≤ (BLOCK_SIZE : Int) → dirCount dir = DIR_CAPACITY)) ∧
    (∀ name : List Nat, (padName name).length = DIR_NAME_LENGTH ∧
      (∃ m, padName name = name.take 47 ++ List.replicate (m + 1) 0) ∧
      cstr (padName name) = cstr (name.take 47)) := by
  refine ⟨?_, ?_, ?_, ?_, ?_, ?_, ?_⟩
  · intro fs dnum name inum now h
    simp [directory_put, h]
  · intro fs dnum name inum now dir hg hd
    simp [directory_put, hg, hd]
  · intro fs dnum name inum now dir i hg hd hi hz hmin
    have hscan : scanFirst (fun k => nb0 (fs.blocks dir.block.toNat k) == 0)
        (dirCount dir) = some i := by
      refine scanFirst_eq_some hi (by simp [hz]) ?_
      intro j hj
      simp [hmin j hj]
    rw [directory_put_reuse hg hd hscan]
    refine ⟨rfl, ?_, ?_, ?_, rfl, rfl, rfl⟩
    · simp [fupd]
    · intro j hj
      simp [fupd, hj]
    · intro c hc
      simp [fupd, hc]
  · intro fs dnum name inum now dir hg hd hlive hc
    have hscan : scanFirst (fun k => nb0 (fs.blocks dir.block.toNat k) == 0)
        (dirCount dir) = none := by
      refine scanFirst_eq_none ?_
      intro j hj
      simp [hlive j hj]
    rw [directory_put_append hg hd hscan hc]
    refine ⟨rfl, ?_, ?_, ?_, ?_, ?_⟩
    · simp [fupd]
    · intro j hj
      simp [fupd, hj]
    · intro c hc'
      simp [fupd, hc']
    · simp [fupd]
    · intro n hn
      simp [fupd, hn]
  · intro fs dnum name inum now dir hg hd hlive hc
    have hscan : scanFirst (fun k => nb0 (fs.blocks dir.block.toNat k) == 0)
        (dirCount dir) = none := by
      refine scanFirst_eq_none ?_
      intro j hj
      simp [hlive j hj]
    exact directory_put_full hg hd hscan hc
  · intro fs dnum name inum now dir hg hd h
    cases hscan : scanFirst (fun k => nb0 (fs.blocks dir.block.toNat k) == 0)
        (dirCount dir) with
    | some i =>
      exfalso
      rw [directory_put_reuse hg hd hscan] at h
      simp [ENOSPC] at h
    | none =>
      have hlive : ∀ j, j < dirCount dir →
          nb0 (fs.blocks dir.block.toNat j) ≠ 0 := by
        intro j hj
        have := scanFirst_none hscan j hj
        simpa using this
      by_cases hc : DIR_CAPACITY ≤ dirCount dir
      · refine ⟨hlive, hc, ?_⟩
        intro hsz
        unfold BLOCK_SIZE at hsz
        have : dirCount dir ≤ 64 := by
          unfold dirCount at *
          unfold DIRENT_SIZE at *
          omega
        unfold DIR_CAPACITY at *
        omega
      · exfalso
        have hc' : dirCount dir < DIR_CAPACITY := by omega
        rw [directory_put_append hg hd hscan hc'] at h
        simp [ENOSPC] at h
  · intro name
    refine ⟨?_, ⟨47 - min name.length 47, ?_⟩, ?_⟩
    · simp [padName, DIR_NAME_LENGTH]
      omega
    · unfold padName
      have : 48 - min name.length 47 = (47 - min name.length 47) + 1 := by omega
      rw [this]
    · unfold padName
      exact cstr_append_zeros _ _

/-- C7 witness: the amended statement applied to the fresh image's root,
whose first tombstone is slot 2 — the put succeeds and the inode table
(hence mtime) is untouched. -/
theorem c7_witness :
    (directory_put fsInit 0 [122] 9 777).1 = 0 ∧
    (directory_put fsInit 0 [122] 9 777).2.inodes = fsInit.inodes := by
  have h := c7_directory_put_amended.2.2.1 fsInit 0 [122] 9 777
    (fsInit.inodes 0) 2 (by decide) (by decide) (by decide) (by decide)
    (by decide)
  exact ⟨h.1, h.2.2.2.2.1⟩

/-- C8: directory_delete semantics — when the first live entry matching the
name sits at index i of the live prefix, delete returns 0, keeps entries
below i, shifts each following live entry one slot left, zeroes the
now-unused final slot, leaves every other slot, block and bitmap alone,
decrements the directory's size by E, and sets its mtime; when no live
entry matches, it returns -ENOENT with the image unchanged. -/
theorem c8_directory_delete_correct :
    (∀ fs dnum name now dir, get_inode fs dnum = some dir →
      S_ISDIR dir.mode = true →
      (∀ j, j < dirCount dir →
        ¬(nb0 (fs.blocks dir.block.toNat j) ≠ 0 ∧
          cstr (fs.blocks dir.block.toNat j).name = name)) →
      directory_delete fs dnum name now = (-ENOENT, fs)) ∧
    (∀ fs dnum name now dir i, get_inode fs dnum = some dir →
      S_ISDIR dir.mode = true →
      i < dirCount dir →
      nb0 (fs.blocks dir.block.toNat i) ≠ 0 →
      cstr (fs.blocks dir.block.toNat i).name = name →
      (∀ j, j < i →
        ¬(nb0 (fs.blocks dir.block.toNat j) ≠ 0 ∧
          cstr (fs.blocks dir.block.toNat j).name = name)) →
      (directory_delete fs dnum name now).1 = 0 ∧
      (∀ j, j < i →
        (directory_delete fs dnum name now).2.blocks dir.block.toNat j =
          fs.blocks dir.block.toNat j) ∧
      (∀ j, i ≤ j → j + 1 < dirCount dir →
        (directory_delete fs dnum name now).2.blocks dir.block.toNat j =
          fs.blocks dir.block.toNat (j + 1)) ∧
      (directory_delete fs dnum name now).2.blocks dir.block.toNat
        (dirCount dir - 1) = zeroEnt ∧
      (∀ j, dirCount dir ≤ j →
        (directory_delete fs dnum name now).2.blocks dir.block.toNat j =
          fs.blocks dir.block.toNat j) ∧
      (∀ c, c ≠ dir.block.toNat →
        (directory_delete fs dnum name now).2.blocks c = fs.blocks c) ∧
      (directory_delete fs dnum name now).2.inodes dnum.toNat =
        { dir with size := dir.size - (DIRENT_SIZE : Int), mtime := now } ∧
      (∀ n, n ≠ dnum.toNat →
        (directory_delete fs dnum name now).2.inodes n = fs.inodes n) ∧
      (directory_delete fs dnum name now).2.inodeBitmap = fs.inodeBitmap ∧
      (directory_delete fs dnum name now).2.blockBitmap = fs.blockBitmap) := by
  constructor
  · intro fs dnum name now dir hg hd hnone
    have hscan : scanFirst
        (fun k => nb0 (fs.blocks dir.block.toNat k) != 0 &&
          cstr (fs.blocks dir.block.toNat k).name == name)
        (dirCount dir) = none := by
      refine scanFirst_eq_none ?_
      intro j hj
      have := hnone j hj
      by_cases h1 : nb0 (fs.blocks dir.block.toNat j) = 0
      · simp [h1]
      · have h2 : ¬ cstr (fs.blocks dir.block.toNat j).name = name := by
          intro h2
          exact this ⟨h1, h2⟩
        simp [h1, h2]
    exact directory_delete_missing hg hd hscan
  · intro fs dnum name now dir i hg hd hi hnb hcs hmin
    have hscan : scanFirst
        (fun k => nb0 (fs.blocks dir.block.toNat k) != 0 &&
          cstr (fs.blocks dir.block.toNat k).name == name)
        (dirCount dir) = some i := by
      refine scanFirst_eq_some hi (by simp [hnb, hcs]) ?_
      intro j hj
      have := hmin j hj
      by_cases h1 : nb0 (fs.blocks dir.block.toNat j) = 0
      · simp [h1]
      · have h2 : ¬ cstr (fs.blocks dir.block.toNat j).name = name := by
          intro h2
          exact this ⟨h1, h2⟩
        simp [h1, h2]
    rw [directory_delete_found hg hd hscan]
    have hcount : 1 ≤ dirCount dir := by omega
    refine ⟨rfl, ?_, ?_, ?_, ?_, ?_, ?_, ?_, rfl, rfl⟩
    · intro j hj
      have h1 : j ≠ dirCount dir - 1 := by omega
      have h2 : ¬ (i ≤ j ∧ j < dirCount dir - 1) := by omega
      simp only [fupd_self]
      simp [deleteShift, h1, h2, fupd]
    · intro j hj1 hj2
      have h1 : j ≠ dirCount dir - 1 := by omega
      have h2 : i ≤ j ∧ j < dirCount dir - 1 := by omega
      simp only [fupd_self]
      simp [deleteShift, h1, h2, fupd]
    · simp only [fupd_self]
      simp [deleteShift]
    · intro j hj
      have h1 : j ≠ dirCount dir - 1 := by omega
      have h2 : ¬ (i ≤ j ∧ j < dirCount dir - 1) := by omega
      simp only [fupd_self]
      simp [deleteShift, h1, h2, fupd]
    · intro c hc
      simp [fupd, hc]
    · simp [fupd]
    · intro n hn
      simp [fupd, hn]

/-- C8 witness: deleting "." from the fresh root applies the theorem at a
concrete image — the delete succeeds and ".." shifts into slot 0. -/
theorem c8_witness :
    (directory_delete fsInit 0 [46] 66).1 = 0 ∧
    (directory_delete fsInit 0 [46] 66).2.blocks 5 0 = fsInit.blocks 5 1 := by
  have h := c8_directory_delete_correct.2 fsInit 0 [46] 66
    (fsInit.inodes 0) 0 (by decide) (by decide) (by decide) (by decide)
    (by decide) (fun j hj => absurd hj (by omega))
  exact ⟨h.1, h.2.2.1 0 (by omega) (by decide)⟩

/-- A successful get_inode means the number was in range and the view is
the table record. -/
theorem get_inode_some {fs : FS} {i : Int} {v : Inode}
    (h : get_inode fs i = some v) :
    0 ≤ i ∧ i < (INODE_COUNT : Int) ∧ fs.inodes i.toNat = v := by
  unfold get_inode at h
  by_cases hc : 0 ≤ i ∧ i < (INODE_COUNT : Int)
  · simp only [hc, if_true] at h
    cases h
    exact ⟨hc.1, hc.2, rfl⟩
  · simp [hc] at h

/-- A nonnegative directory_lookup result comes from a successful name
scan over the live prefix. -/
theorem directory_lookup_found {fs : FS} {dir : Inode} {name : List Nat}
    (h : 0 ≤ directory_lookup fs dir name) :
    ∃ j, scanFirst (fun k => cstr (fs.blocks dir.block.toNat k).name == name)
        (dirCount dir) = some j ∧
      (fs.blocks dir.block.toNat j).inum = directory_lookup fs dir name := by
  unfold directory_lookup at h ⊢
  cases hs : scanFirst (fun k => cstr (fs.blocks dir.block.toNat k).name == name)
      (dirCount dir) with
  | none =>
    simp only [hs] at h
    simp [ENOENT] at h
  | some j =>
    simp only [hs] at h ⊢
    exact ⟨j, rfl, rfl⟩

/-- An entry whose first name byte is NUL has an empty stored string. -/
theorem cstr_nil_of_nb0 {e : DirEnt} (h : nb0 e = 0) : cstr e.name = [] := by
  cases hn : e.name with
  | nil => rfl
  | cons a t =>
    unfold nb0 at h
    rw [hn] at h
    simp at h
    subst h
    simp [cstr]

/-- C6: unlink fails -EISDIR when the resolved target is a directory
(both storage_unlink and nufs_unlink, image untouched); every failing
unlink leaves the image exactly as it was, so no failure can leave a
directory entry pointing at a freed inode; and a successful unlink removes
the entry (the parent's size drops by E) before the target's block and
inode bits are cleared, finally setting the parent's mtime and ctime. -/
theorem c6_unlink_semantics :
    (∀ fs path now li pn parent fi node,
      lastIdxOf 47 path = some li →
      storage_lookup_path fs (parentPathOf path li) = pn → 0 ≤ pn →
      get_inode fs pn = some parent → S_ISDIR parent.mode = true →
      directory_lookup fs parent (path.drop (li + 1)) = fi → 0 ≤ fi →
      get_inode fs fi = some node → S_ISDIR node.mode = true →
      storage_unlink fs path now = (-EISDIR, fs)) ∧
    (∀ fs path now, (storage_unlink fs path now).1 ≠ 0 →
      (storage_unlink fs path now).2 = fs) ∧
    (∀ fs path now li pn parent fi node,
      lastIdxOf 47 path = some li →
      storage_lookup_path fs (parentPathOf path li) = pn → 0 ≤ pn →
      get_inode fs pn = some parent → S_ISDIR parent.mode = true →
      directory_lookup fs parent (path.drop (li + 1)) = fi → 0 ≤ fi →
      get_inode fs fi = some node → S_ISDIR node.mode = false →
      path.drop (li + 1) ≠ [] →
      0 < node.block → node.block < (BLOCK_COUNT : Int) →
      (storage_unlink fs path now).1 = 0 ∧
      (storage_unlink fs path now).2.blockBitmap node.block.toNat = false ∧
      (storage_unlink fs path now).2.inodeBitmap fi.toNat = false ∧
      ((storage_unlink fs path now).2.inodes pn.toNat).mtime = now ∧
      ((storage_unlink fs path now).2.inodes pn.toNat).ctime = now ∧
      ((storage_unlink fs path now).2.inodes pn.toNat).size =
        parent.size - (DIRENT_SIZE : Int)) ∧
    (∀ fs path now li pn parent fi node,
      lastIdxOf 47 path = some li →
      storage_lookup_path fs (parentPathOf path li) = pn → 0 ≤ pn →
      get_inode fs pn = some parent → S_ISDIR parent.mode = true →
      directory_lookup fs parent (path.drop (li + 1)) = fi → 0 ≤ fi →
      get_inode fs fi = some node → S_ISDIR node.mode = true →
      nufs_unlink fs path now = (-EISDIR, fs)) ∧
    (∀ fs path now, (nufs_unlink fs path now).1 ≠ 0 →
      (nufs_unlink fs path now).2 = fs) ∧
    (∀ fs path now li pn parent fi node,
      lastIdxOf 47 path = some li →
      storage_lookup_path fs (parentPathOf path li) = pn → 0 ≤ pn →
      get_inode fs pn = some parent → S_ISDIR parent.mode = true →
      directory_lookup fs parent (path.drop (li + 1)) = fi → 0 ≤ fi →
      get_inode fs fi = some node → S_ISDIR node.mode = false →
      0 < node.block → node.block < (BLOCK_COUNT : Int) →
      (nufs_unlink fs path now).1 = 0 ∧
      (nufs_unlink fs path now).2.blockBitmap node.block.toNat = false ∧
      (nufs_unlink fs path now).2.inodeBitmap fi.toNat = false ∧
      ((nufs_unlink fs path now).2.inodes pn.toNat).mtime = now ∧
      ((nufs_unlink fs path now).2.inodes pn.toNat).ctime = now ∧
      ((nufs_unlink fs path now).2.inodes pn.toNat).size =
        parent.size - (DIRENT_SIZE : Int)) := by
  refine ⟨?_, ?_, ?_, ?_, ?_, ?_⟩
  · intro fs path now li pn parent fi node hli hpneq hpn0 hgp hpd hfieq hfi0
      hgn hnd
    have hpn' : ¬ pn < 0 := by omega
    have hfi' : ¬ fi < 0 := by omega
    simp [storage_unlink, hli, hpneq, hpn', hgp, hpd, hfieq, hfi', hgn, hnd]
  · intro fs path now h
    cases hli : lastIdxOf 47 path with
    | none => simp [storage_unlink, hli]
    | some li =>
      by_cases hpn : storage_lookup_path fs (parentPathOf path li) < 0
      · simp [storage_unlink, hli, hpn]
      · cases hgp : get_inode fs (storage_lookup_path fs (parentPathOf path li)) with
        | none => simp [storage_unlink, hli, hpn, hgp]
        | some parent =>
          by_cases hpd : S_ISDIR parent.mode
          · by_cases hfi : directory_lookup fs parent (path.drop (li + 1)) < 0
            · simp [storage_unlink, hli, hpn, hgp, hpd, hfi]
            · cases hgn : get_inode fs
                  (directory_lookup fs parent (path.drop (li + 1))) with
              | none => simp [storage_unlink, hli, hpn, hgp, hpd, hfi, hgn]
              | some node =>
                by_cases hnd : S_ISDIR node.mode
                · simp [storage_unlink, hli, hpn, hgp, hpd, hfi, hgn, hnd]
                · rcases hdel : directory_delete fs
                      (storage_lookup_path fs (parentPathOf path li))
                      (path.drop (li + 1)) now with ⟨rv, fs1⟩
                  by_cases hrv : rv = 0
                  · exfalso
                    subst hrv
                    simp [storage_unlink, hli, hpn, hgp, hpd, hfi, hgn, hnd,
                      hdel] at h
                  · have hfs1 : fs1 = fs := by
                      have h1 : (directory_delete fs
                          (storage_lookup_path fs (parentPathOf path li))
                          (path.drop (li + 1)) now).1 ≠ 0 := by
                        rw [hdel]; exact hrv
                      have := directory_delete_err h1
                      rw [hdel] at this
                      exact this
                    simp [storage_unlink, hli, hpn, hgp, hpd, hfi, hgn, hnd,
                      hdel, hrv, hfs1]
          · simp [storage_unlink, hli, hpn, hgp, hpd]
  · intro fs path now li pn parent fi node hli hpneq hpn0 hgp hpd hfieq hfi0
      hgn hnd hfname hb0 hblt
    obtain ⟨hpnge, hpn256, hparent⟩ := get_inode_some hgp
    obtain ⟨hfige, hfi256, hnodeEq⟩ := get_inode_some hgn
    have hne : fi.toNat ≠ pn.toNat := by
      intro he
      rw [← he] at hparent
      rw [hnodeEq] at hparent
      rw [hparent] at hnd
      rw [hnd] at hpd
      cases hpd
    have hlkge : 0 ≤ directory_lookup fs parent (path.drop (li + 1)) := by
      rw [hfieq]; exact hfi0
    obtain ⟨j, hsc, hinum⟩ := directory_lookup_found hlkge
    obtain ⟨hjlt, hjpred, hjmin⟩ := scanFirst_some hsc
    have hcstr : cstr (fs.blocks parent.block.toNat j).name =
        path.drop (li + 1) := by simpa using hjpred
    have hnbj : nb0 (fs.blocks parent.block.toNat j) ≠ 0 := by
      intro h0
      have hnil := cstr_nil_of_nb0 h0
      rw [hnil] at hcstr
      exact hfname hcstr.symm
    have hdelscan : scanFirst
        (fun k => nb0 (fs.blocks parent.block.toNat k) != 0 &&
          cstr (fs.blocks parent.block.toNat k).name == path.drop (li + 1))
        (dirCount parent) = some j := by
      refine scanFirst_eq_some hjlt (by simp [hnbj, hcstr]) ?_
      intro k hk
      have := hjmin k hk
      simp only [Bool.and_eq_false_iff]
      right
      exact this
    have hdel := @directory_delete_found fs pn (path.drop (li + 1)) now parent
      j hgp hpd hdelscan
    have hpn' : ¬ pn < 0 := by omega
    have hfi' : ¬ fi < 0 := by omega
    have hbge : 0 ≤ node.block := by omega
    have hbne : node.block ≠ 0 := by omega
    refine ⟨?_, ?_, ?_, ?_, ?_, ?_⟩ <;>
      simp [storage_unlink, hli, hpneq, hpn', hgp, hpd, hfieq, hfi', hgn, hnd,
        hdel, hbge, hblt, free_block, free_inode, setInode, fupd, hne, hfige,
        hfi256, hnodeEq, hbne]
  · intro fs path now li pn parent fi node hli hpneq hpn0 hgp hpd hfieq hfi0
      hgn hnd
    have hpn' : ¬ pn < 0 := by omega
    have hfi' : ¬ fi < 0 := by omega
    simp [nufs_unlink, hli, hpneq, hpn', hgp, hpd, hfieq, hfi', hgn, hnd]
  · intro fs path now h
    cases hli : lastIdxOf 47 path with
    | none => simp [nufs_unlink, hli]
    | some li =>
      by_cases hpn : storage_lookup_path fs (parentPathOf path li) < 0
      · simp [nufs_unlink, hli, hpn]
      · cases hgp : get_inode fs (storage_lookup_path fs (parentPathOf path li)) with
        | none => simp [nufs_unlink, hli, hpn, hgp]
        | some parent =>
          by_cases hpd : S_ISDIR parent.mode
          · by_cases hfi : directory_lookup fs parent (path.drop (li + 1)) < 0
            · simp [nufs_unlink, hli, hpn, hgp, hpd, hfi]
            · cases hgn : get_inode fs
                  (directory_lookup fs parent (path.drop (li + 1))) with
              | none => simp [nufs_unlink, hli, hpn, hgp, hpd, hfi, hgn]
              | some node =>
                by_cases hnd : S_ISDIR node.mode
                · simp [nufs_unlink, hli, hpn, hgp, hpd, hfi, hgn, hnd]
                · cases hsc : scanFirst
                      (fun i => cstr (fs.blocks parent.block.toNat i).name ==
                        path.drop (li + 1)) (dirCount parent) with
                  | none =>
                    simp [nufs_unlink, hli, hpn, hgp, hpd, hfi, hgn, hnd, hsc]
                  | some i =>
                    exfalso
                    simp [nufs_unlink, hli, hpn, hgp, hpd, hfi, hgn, hnd,
                      hsc] at h
          · simp [nufs_unlink, hli, hpn, hgp, hpd]
  · intro fs path now li pn parent fi node hli hpneq hpn0 hgp hpd hfieq hfi0
      hgn hnd hb0 hblt
    obtain ⟨hpnge, hpn256, hparent⟩ := get_inode_some hgp
    obtain ⟨hfige, hfi256, hnodeEq⟩ := get_inode_some hgn
    have hne : fi.toNat ≠ pn.toNat := by
      intro he
      rw [← he] at hparent
      rw [hnodeEq] at hparent
      rw [hparent] at hnd
      rw [hnd] at hpd
      cases hpd
    have hlkge : 0 ≤ directory_lookup fs parent (path.drop (li + 1)) := by
      rw [hfieq]; exact hfi0
    obtain ⟨j, hsc, hinum⟩ := directory_lookup_found hlkge
    have hpn' : ¬ pn < 0 := by omega
    have hfi' : ¬ fi < 0 := by omega
    have hbge : 0 ≤ node.block := by omega
    have hbne : node.block ≠ 0 := by omega
    refine ⟨?_, ?_, ?_, ?_, ?_, ?_⟩ <;>
      simp [nufs_unlink, hli, hpneq, hpn', hgp, hpd, hfieq, hfi', hgn, hnd,
        hsc, hbge, hblt, free_block, free_inode, setInode, fupd, hne, hfige,
        hfi256, hnodeEq, hbne]

/-- Two writes to the same index collapse to the later one. -/
theorem fupd_fupd_same {α : Type} (f : Nat → α) (i : Nat) (a b : α) :
    fupd (fupd f i a) i b = fupd f i b := by
  funext k
  by_cases h : k = i <;> simp [fupd, h]

/-- Rolling back a fresh inode whose block field never became a valid
block (alloc_block failed with a negative value): free_inode restores the
bitmaps and every allocated record, observationally undoing the
allocation. -/
theorem rollback_inode_only (fs : FS) (k : Nat) (v : Inode)
    (hk : k < INODE_COUNT) (hibm : fs.inodeBitmap k = false)
    (hvb : v.block < 0) :
    obsEq fs (free_inode
      { blockBitmap := fs.blockBitmap, inodeBitmap := fupd fs.inodeBitmap k true
        rootSlot := fs.rootSlot, inodes := fupd fs.inodes k v
        blocks := fs.blocks, data := fs.data } ((k : Nat) : Int)) := by
  have h1 : (0 : Int) ≤ (k : Int) := by omega
  have h2 : (k : Int) < (INODE_COUNT : Int) := by omega
  have hvb' : v.block ≠ 0 := by omega
  have hfb : ¬ ((0 : Int) ≤ v.block ∧ v.block < (BLOCK_COUNT : Int)) := by
    intro hc
    omega
  have hstep : free_inode
      { blockBitmap := fs.blockBitmap, inodeBitmap := fupd fs.inodeBitmap k true
        rootSlot := fs.rootSlot, inodes := fupd fs.inodes k v
        blocks := fs.blocks, data := fs.data } ((k : Nat) : Int) =
      { blockBitmap := fs.blockBitmap
        inodeBitmap := fupd fs.inodeBitmap k false
        rootSlot := fs.rootSlot, inodes := fupd fs.inodes k v
        blocks := fs.blocks, data := fs.data } := by
    unfold free_inode free_block
    simp [h1, h2, fupd_self, fupd_fupd_same, hvb', hfb]
  rw [hstep]
  refine ⟨fun n hn => rfl, ?_, rfl, ?_, fun c hc i hi => rfl,
    fun c hc i hi => rfl⟩
  · intro n hn
    by_cases h : n = k
    · subst h
      simp [fupd, hibm]
    · simp [fupd, h]
  · intro n hn hset
    have h : n ≠ k := by
      intro he
      rw [he, hibm] at hset
      cases hset
    simp [fupd, h]

/-- Rolling back a fresh inode together with its freshly allocated block
after a failed directory insertion: freeing the block and then the inode
observationally restores the image. -/
theorem rollback_inode_block (fs : FS) (pn : Int) (fname : List Nat)
    (inum now : Int) (k b : Nat) (v : Inode)
    (hk : k < INODE_COUNT) (hbk : b < BLOCK_COUNT)
    (hibm : fs.inodeBitmap k = false) (hbbm : fs.blockBitmap b = false)
    (hvb : v.block = (b : Int)) :
    ∀ rv fs5,
      directory_put
        { blockBitmap := fupd fs.blockBitmap b true
          inodeBitmap := fupd fs.inodeBitmap k true
          rootSlot := fs.rootSlot, inodes := fupd fs.inodes k v
          blocks := fs.blocks, data := fs.data } pn fname inum now = (rv, fs5) →
      rv < 0 →
      obsEq fs (free_inode (free_block fs5 ((fs5.inodes k).block))
        ((k : Nat) : Int)) := by
  intro rv fs5 hput hrv
  have h5 : fs5 =
      { blockBitmap := fupd fs.blockBitmap b true
        inodeBitmap := fupd fs.inodeBitmap k true
        rootSlot := fs.rootSlot, inodes := fupd fs.inodes k v
        blocks := fs.blocks, data := fs.data } := by
    have h1 : (directory_put
        { blockBitmap := fupd fs.blockBitmap b true
          inodeBitmap := fupd fs.inodeBitmap k true
          rootSlot := fs.rootSlot, inodes := fupd fs.inodes k v
          blocks := fs.blocks, data := fs.data } pn fname inum now).1 < 0 := by
      rw [hput]; exact hrv
    have h2 := directory_put_err h1
    rw [hput] at h2
    exact h2
  subst h5
  have h1 : (0 : Int) ≤ (k : Int) := by omega
  have h2 : (k : Int) < (INODE_COUNT : Int) := by omega
  have hg1 : (0 : Int) ≤ (b : Int) := by omega
  have hg2 : (b : Int) < (BLOCK_COUNT : Int) := by omega
  have harg : (((fupd fs.inodes k v) k).block) = (b : Int) := by
    simp [fupd_self, hvb]
  have hk2 : k < 256 := hk
  have hb2 : b < 256 := hbk
  have hstep : free_inode (free_block
      { blockBitmap := fupd fs.blockBitmap b true
        inodeBitmap := fupd fs.inodeBitmap k true
        rootSlot := fs.rootSlot, inodes := fupd fs.inodes k v
        blocks := fs.blocks, data := fs.data } ((b : Nat) : Int))
        ((k : Nat) : Int) =
      { blockBitmap := fupd fs.blockBitmap b false
        inodeBitmap := fupd fs.inodeBitmap k false
        rootSlot := fs.rootSlot, inodes := fupd fs.inodes k v
        blocks := fs.blocks, data := fs.data } := by
    unfold free_block free_inode
    by_cases hb0 : (b : Int) = 0
    · have hbn : b = 0 := by exact_mod_cast hb0
      subst hbn
      simp [BLOCK_COUNT, INODE_COUNT, h1, h2, hk2, fupd_self, fupd_fupd_same,
        hvb]
    · unfold free_block
      simp [BLOCK_COUNT, INODE_COUNT, hg1, hg2, h1, h2, hk2, hb2, fupd_self,
        fupd_fupd_same, hvb, hb0]
  simp only [fupd_self]
  rw [hvb, hstep]
  refine ⟨?_, ?_, rfl, ?_, fun c hc i hi => rfl, fun c hc i hi => rfl⟩
  · intro n hn
    by_cases h : n = b
    · subst h
      simp [fupd, hbbm]
    · simp [fupd, h]
  · intro n hn
    by_cases h : n = k
    · subst h
      simp [fupd, hibm]
    · simp [fupd, h]
  · intro n hn hset
    have h : n ≠ k := by
      intro he
      rw [he, hibm] at hset
      cases hset
    simp [fupd, h]


/-- alloc_block_none specialized to a component-wise image literal, so it
can rewrite intermediate states produced by simp. -/
theorem alloc_block_none_fields (bb ib : Nat → Bool) (rs : Int)
    (ino : Nat → Inode) (bl : Nat → Nat → DirEnt) (da : Nat → Nat → Nat)
    (hs : scanFirst (fun c => !bb c) BLOCK_COUNT = none) :
    alloc_block ⟨bb, ib, rs, ino, bl, da⟩ = (-1, ⟨bb, ib, rs, ino, bl, da⟩) :=
  alloc_block_none hs

/-- alloc_block_eq specialized to a component-wise image literal. -/
theorem alloc_block_eq_fields (bb ib : Nat → Bool) (rs : Int)
    (ino : Nat → Inode) (bl : Nat → Nat → DirEnt) (da : Nat → Nat → Nat)
    (b : Nat) (hs : scanFirst (fun c => !bb c) BLOCK_COUNT = some b) :
    alloc_block ⟨bb, ib, rs, ino, bl, da⟩ =
      ((b : Int), ⟨fupd bb b true, ib, rs, ino, bl, da⟩) :=
  alloc_block_eq hs

set_option maxHeartbeats 8000000

/-- C4 (amended): mknod error handling — both storage_mknod and
storage_mknod_at fail -ENOTDIR when the parent is not a directory,
-EEXIST when the name exists, and -ENOSPC when inode or block allocation
fails, rolling back a preceding allocation; every failing storage_mknod
leaves the image observationally as it was (conjunct one covers its
insertion-failure rollback), while storage_mknod_at returns the insertion
error leaving the just-allocated inode and block still marked allocated. -/
theorem c4_mknod_error_handling_amended :
    (∀ fs path mode now, (storage_mknod fs path mode now).1 < 0 →
      obsEq fs (storage_mknod fs path mode now).2) ∧
    (∀ fs path mode now li pn parent, lastIdxOf 47 path = some li →
      storage_lookup_path fs (parentPathOf path li) = pn → 0 ≤ pn →
      get_inode fs pn = some parent → S_ISDIR parent.mode = false →
      storage_mknod fs path mode now = (-ENOTDIR, fs)) ∧
    (∀ fs path mode now li pn parent, lastIdxOf 47 path = some li →
      storage_lookup_path fs (parentPathOf path li) = pn → 0 ≤ pn →
      get_inode fs pn = some parent → S_ISDIR parent.mode = true →
      0 ≤ directory_lookup fs parent (path.drop (li + 1)) →
      storage_mknod fs path mode now = (-EEXIST, fs)) ∧
    (∀ fs path mode now li pn parent, lastIdxOf 47 path = some li →
      storage_lookup_path fs (parentPathOf path li) = pn → 0 ≤ pn →
      get_inode fs pn = some parent → S_ISDIR parent.mode = true →
      directory_lookup fs parent (path.drop (li + 1)) < 0 →
      scanFirst (fun n => !fs.inodeBitmap n) INODE_COUNT = none →
      storage_mknod fs path mode now = (-ENOSPC, fs)) ∧
    (∀ fs path mode now li pn parent k, lastIdxOf 47 path = some li →
      storage_lookup_path fs (parentPathOf path li) = pn → 0 ≤ pn →
      get_inode fs pn = some parent → S_ISDIR parent.mode = true →
      directory_lookup fs parent (path.drop (li + 1)) < 0 →
      scanFirst (fun n => !fs.inodeBitmap n) INODE_COUNT = some k →
      scanFirst (fun c => !fs.blockBitmap c) BLOCK_COUNT = none →
      (storage_mknod fs path mode now).1 = -ENOSPC) ∧
    (∀ fs pn name mode now, get_inode fs pn = none →
      storage_mknod_at fs pn name mode now = (-ENOTDIR, fs)) ∧
    (∀ fs pn name mode now parent, get_inode fs pn = some parent →
      S_ISDIR parent.mode = false →
      storage_mknod_at fs pn name mode now = (-ENOTDIR, fs)) ∧
    (∀ fs pn name mode now parent, get_inode fs pn = some parent →
      S_ISDIR parent.mode = true → 0 ≤ directory_lookup fs parent name →
      storage_mknod_at fs pn name mode now = (-EEXIST, fs)) ∧
    (∀ fs pn name mode now parent, get_inode fs pn = some parent →
      S_ISDIR parent.mode = true → directory_lookup fs parent name < 0 →
      scanFirst (fun n => !fs.inodeBitmap n) INODE_COUNT = none →
      storage_mknod_at fs pn name mode now = (-ENOSPC, fs)) ∧
    (∀ fs pn name mode now parent k, get_inode fs pn = some parent →
      S_ISDIR parent.mode = true → directory_lookup fs parent name < 0 →
      scanFirst (fun n => !fs.inodeBitmap n) INODE_COUNT = some k →
      scanFirst (fun c => !fs.blockBitmap c) BLOCK_COUNT = none →
      (storage_mknod_at fs pn name mode now).1 = -ENOSPC ∧
      obsEq fs (storage_mknod_at fs pn name mode now).2) ∧
    (∀ fs pn name mode now parent k b, get_inode fs pn = some parent →
      S_ISDIR parent.mode = true → directory_lookup fs parent name < 0 →
      fs.inodeBitmap pn.toNat = true →
      scanFirst (fun n => !fs.inodeBitmap n) INODE_COUNT = some k →
      scanFirst (fun c => !fs.blockBitmap c) BLOCK_COUNT = some b →
      (∀ j, j < dirCount parent → nb0 (fs.blocks parent.block.toNat j) ≠ 0) →
      DIR_CAPACITY ≤ dirCount parent →
      (storage_mknod_at fs pn name mode now).1 = -ENOSPC ∧
      (storage_mknod_at fs pn name mode now).2.inodeBitmap k = true ∧
      (storage_mknod_at fs pn name mode now).2.blockBitmap b = true ∧
      fs.inodeBitmap k = false ∧ fs.blockBitmap b = false) := by
  have hm1 : ((-1 : Int) < 0) := by decide
  refine ⟨?_, ?_, ?_, ?_, ?_, ?_, ?_, ?_, ?_, ?_, ?_⟩
  · intro fs path mode now h
    cases hli : lastIdxOf 47 path with
    | none =>
      simp only [storage_mknod, hli]
      exact obsEq_refl fs
    | some li =>
      by_cases hpn : storage_lookup_path fs (parentPathOf path li) < 0
      · simp only [storage_mknod, hli, if_pos hpn]
        exact obsEq_refl fs
      · cases hgp : get_inode fs (storage_lookup_path fs (parentPathOf path li)) with
        | none =>
          simp only [storage_mknod, hli, if_neg hpn, hgp]
          exact obsEq_refl fs
        | some parent =>
          by_cases hpd : S_ISDIR parent.mode
          · by_cases hex : 0 ≤ directory_lookup fs parent (path.drop (li + 1))
            · simp only [storage_mknod, hli, if_neg hpn, hgp, hpd, not_true,
                if_false, if_pos hex]
              exact obsEq_refl fs
            · cases hsi : scanFirst (fun n => !fs.inodeBitmap n) INODE_COUNT with
              | none =>
                have hai : alloc_inode fs now = (-1, fs) := alloc_inode_none hsi
                simp only [storage_mknod, hli, if_neg hpn, hgp, hpd, not_true,
                  if_false, if_neg hex, hai, if_pos hm1]
                exact obsEq_refl fs
              | some k =>
                obtain ⟨hk256, hkp, _⟩ := scanFirst_some hsi
                have hibmk : fs.inodeBitmap k = false := by simpa using hkp
                have hknn : ¬ ((k : Int) < 0) := by omega
                have hai : alloc_inode fs now = ((k : Int), allocInodeFS fs now k) :=
                  alloc_inode_eq hsi
                cases hsb : scanFirst (fun c => !fs.blockBitmap c) BLOCK_COUNT with
                | none =>
                  simp only [storage_mknod, hli, if_neg hpn, hgp, hpd,
                    not_true, if_false, if_neg hex, hai, if_neg hknn, setInode,
                    Int.toNat_natCast, allocInodeFS, fupd_fupd_same, fupd_self,
                    alloc_block_none_fields _ _ _ _ _ _ hsb, if_pos hm1]
                  exact rollback_inode_only fs k _ hk256 hibmk (by norm_num)
                | some b =>
                  obtain ⟨hb256, hbp, _⟩ := scanFirst_some hsb
                  have hbbmb : fs.blockBitmap b = false := by simpa using hbp
                  have hbnn : ¬ ((b : Int) < 0) := by omega
                  simp only [storage_mknod, hli, if_neg hpn, hgp, hpd,
                    not_true, if_false, if_neg hex, hai, if_neg hknn, setInode,
                    Int.toNat_natCast, allocInodeFS, fupd_fupd_same, fupd_self,
                    alloc_block_eq_fields _ _ _ _ _ _ _ hsb, if_neg hbnn] at h ⊢
                  split at h
                  next hc =>
                    rw [if_pos hc]
                    exact rollback_inode_block fs
                      (storage_lookup_path fs (parentPathOf path li))
                      (path.drop (li + 1)) ((k : Nat) : Int) now k b _
                      hk256 hb256 hibmk hbbmb rfl _ _ rfl hc
                  next hc =>
                    simp at h
          · simp only [storage_mknod, hli, if_neg hpn, hgp, hpd,
              not_false_eq_true, if_true]
            exact obsEq_refl fs
  · intro fs path mode now li pn parent hli hpe hpn0 hgp hpd
    have hpn' : ¬ pn < 0 := by omega
    simp [storage_mknod, hli, hpe, hpn', hgp, hpd]
  · intro fs path mode now li pn parent hli hpe hpn0 hgp hpd hex
    have hpn' : ¬ pn < 0 := by omega
    simp [storage_mknod, hli, hpe, hpn', hgp, hpd, hex]
  · intro fs path mode now li pn parent hli hpe hpn0 hgp hpd hex hsi
    have hpn' : ¬ pn < 0 := by omega
    have hex' : ¬ 0 ≤ directory_lookup fs parent (path.drop (li + 1)) := by
      omega
    have hai : alloc_inode fs now = (-1, fs) := alloc_inode_none hsi
    simp [storage_mknod, hli, hpe, hpn', hgp, hpd, hex', hai, hm1]
  · intro fs path mode now li pn parent k hli hpe hpn0 hgp hpd hex hsi hsb
    obtain ⟨hk256, hkp, _⟩ := scanFirst_some hsi
    have hknn : ¬ ((k : Int) < 0) := by omega
    have hpn' : ¬ pn < 0 := by omega
    have hex' : ¬ 0 ≤ directory_lookup fs parent (path.drop (li + 1)) := by
      omega
    have hai : alloc_inode fs now = ((k : Int), allocInodeFS fs now k) :=
      alloc_inode_eq hsi
    simp [storage_mknod, hli, hpe, hpn', hgp, hpd, hex', hai, hknn, setInode,
      Int.toNat_natCast, allocInodeFS, fupd_fupd_same, fupd_self,
      alloc_block_none_fields _ _ _ _ _ _ hsb, hm1]
  · intro fs pn name mode now hg
    simp [storage_mknod_at, hg]
  · intro fs pn name mode now parent hg hpd
    simp [storage_mknod_at, hg, hpd]
  · intro fs pn name mode now parent hg hpd hex
    simp [storage_mknod_at, hg, hpd, hex]
  · intro fs pn name mode now parent hg hpd hex hsi
    have hex' : ¬ 0 ≤ directory_lookup fs parent name := by omega
    have hai : alloc_inode fs now = (-1, fs) := alloc_inode_none hsi
    simp [storage_mknod_at, hg, hpd, hex', hai, hm1]
  · intro fs pn name mode now parent k hg hpd hex hsi hsb
    obtain ⟨hk256, hkp, _⟩ := scanFirst_some hsi
    have hibmk : fs.inodeBitmap k = false := by simpa using hkp
    have hknn : ¬ ((k : Int) < 0) := by omega
    have hex' : ¬ 0 ≤ directory_lookup fs parent name := by omega
    have hai : alloc_inode fs now = ((k : Int), allocInodeFS fs now k) :=
      alloc_inode_eq hsi
    constructor
    · simp [storage_mknod_at, hg, hpd, hex', hai, hknn, setInode,
        Int.toNat_natCast, allocInodeFS, fupd_fupd_same, fupd_self,
        alloc_block_none_fields _ _ _ _ _ _ hsb, hm1]
    · simp only [storage_mknod_at, hg, hpd, not_true, if_false, hex', hai,
        if_neg hknn, setInode, Int.toNat_natCast, allocInodeFS,
        fupd_fupd_same, fupd_self, alloc_block_none_fields _ _ _ _ _ _ hsb,
        if_pos hm1]
      exact rollback_inode_only fs k _ hk256 hibmk (by norm_num)
  · intro fs pn name mode now parent k b hg hpd hex hpal hsi hsb hlive hfull
    obtain ⟨hk256, hkp, _⟩ := scanFirst_some hsi
    have hibmk : fs.inodeBitmap k = false := by simpa using hkp
    obtain ⟨hb256, hbp, _⟩ := scanFirst_some hsb
    have hbbmb : fs.blockBitmap b = false := by simpa using hbp
    have hknn : ¬ ((k : Int) < 0) := by omega
    have hbnn : ¬ ((b : Int) < 0) := by omega
    have hex' : ¬ 0 ≤ directory_lookup fs parent name := by omega
    obtain ⟨hpn0, hpn256, hparent⟩ := get_inode_some hg
    have hne : pn.toNat ≠ k := by
      intro he
      rw [he] at hpal
      rw [hpal] at hibmk
      cases hibmk
    have hai : alloc_inode fs now = ((k : Int), allocInodeFS fs now k) :=
      alloc_inode_eq hsi
    have hg4 : get_inode
        { blockBitmap := fupd fs.blockBitmap b true
          inodeBitmap := fupd fs.inodeBitmap k true
          rootSlot := fs.rootSlot
          inodes := fupd fs.inodes k
            { inum := (k : Int), refs := 1, mode := mode, size := 0
              block := (b : Int), atime := now, mtime := now, ctime := now }
          blocks := fs.blocks, data := fs.data } pn = some parent := by
      unfold get_inode
      simp only [hpn0, hpn256, and_self, if_true, true_and]
      rw [fupd_other _ _ _ hne, hparent]
    have hput := @directory_put_full
        { blockBitmap := fupd fs.blockBitmap b true
          inodeBitmap := fupd fs.inodeBitmap k true
          rootSlot := fs.rootSlot
          inodes := fupd fs.inodes k
            { inum := (k : Int), refs := 1, mode := mode, size := 0
              block := (b : Int), atime := now, mtime := now, ctime := now }
          blocks := fs.blocks, data := fs.data }
      pn name ((k : Nat) : Int) now parent
      hg4 hpd (by
        refine scanFirst_eq_none ?_
        intro j hj
        simp [hlive j hj]) hfull
    refine ⟨?_, ?_, ?_, hibmk, hbbmb⟩ <;>
      simp [storage_mknod_at, hg, hpd, hex', hai, hknn, setInode,
        Int.toNat_natCast, allocInodeFS, fupd_fupd_same, fupd_self,
        alloc_block_eq_fields _ _ _ _ _ _ _ hsb, hbnn, hput]

/-- C4 witness: the amended statement applied to the concrete full-root
image — mknod_at fails -ENOSPC from the insertion and the fresh inode 1
and block 6 stay allocated. -/
theorem c4_witness :
    (storage_mknod_at fullRoot 0 [97] MODE_REG_0644 9).1 = -ENOSPC ∧
    (storage_mknod_at fullRoot 0 [97] MODE_REG_0644 9).2.inodeBitmap 1 = true ∧
    (storage_mknod_at fullRoot 0 [97] MODE_REG_0644 9).2.blockBitmap 6 = true := by
  have h := c4_mknod_error_handling_amended.2.2.2.2.2.2.2.2.2.2 fullRoot 0
    [97] MODE_REG_0644 9
    { inum := 0, refs := 1, mode := 16877, size := 4096, block := 5
      atime := 0, mtime := 0, ctime := 0 } 1 6
    (by decide) (by decide) (by decide) (by decide) (by decide) (by decide)
    (by decide) (by decide)
  exact ⟨h.1, h.2.1, h.2.2.1⟩

/-- C6 witness: the unlink theorem applied to the concrete image holding
"/x" — the unlink succeeds, block 6 and inode 1 are freed, and the root's
mtime becomes the call time. -/
theorem c6_witness :
    (storage_unlink mkx.2 [47, 120] 50).1 = 0 ∧
    (storage_unlink mkx.2 [47, 120] 50).2.blockBitmap 6 = false ∧
    (storage_unlink mkx.2 [47, 120] 50).2.inodeBitmap 1 = false ∧
    ((storage_unlink mkx.2 [47, 120] 50).2.inodes 0).mtime = 50 := by
  have h := c6_unlink_semantics.2.2.1 mkx.2 [47, 120] 50 0 0
    (mkx.2.inodes 0) 1 (mkx.2.inodes 1)
    (by decide) (by decide) (by decide) (by decide) (by decide) (by decide)
    (by decide) (by decide) (by decide) (by decide) (by decide) (by decide)
  exact ⟨h.1, h.2.1, h.2.2.1, h.2.2.2.1⟩
